import Mathlib

/-!
Verification development for `doxygen2man` (`src/main.rs`), a converter from
doxygen XML dumps to troff man pages.  The Rust source is shallowly embedded:

* the streaming XML reader is modelled as a `List XmlEvent` consumed by
  fuel-indexed recursive collectors (a run that would loop forever or hit a
  stream error is `none`);
* Rust `String` values are Lean `String`s for the char-oriented code, and
  `List Nat` byte sequences for the byte-indexed slicing in `print_param`
  (where UTF-8 char boundaries matter);
* `HashMap` is an association list with last-insert-wins lookup;
* file creation / the filesystem are abstracted as function parameters;
* a Rust `panic!` (a failed `unwrap`) is `none` / an aborted batch.
-/

namespace Doxygen2man

/-! ## Basic string helpers (models of the Rust std functions used) -/

/-- Model of Rust `str::trim_end` on the char level (whitespace stripped from
the right). -/
def rtrimList : List Char → List Char
  | [] => []
  | c :: t =>
    match rtrimList t with
    | [] => if c.isWhitespace then [] else [c]
    | t' => c :: t'

def rtrim (s : String) : String := String.mk (rtrimList s.data)

/-- Model of Rust `str::trim` (whitespace stripped from both ends). -/
def trimBoth (s : String) : String :=
  String.mk ((rtrimList s.data.reverse).reverse |> rtrimList)

/-- Model of Rust `str::split_whitespace`: maximal runs of non-whitespace. -/
def splitWsChars : List Char → List Char → List String
  | [], [] => []
  | [], cur => [String.mk cur.reverse]
  | c :: t, cur =>
    if c.isWhitespace then
      (if cur = [] then [] else [String.mk cur.reverse]) ++ splitWsChars t []
    else
      splitWsChars t (c :: cur)

def split_whitespace (s : String) : List String := splitWsChars s.data []

/-- Model of Rust `char::to_ascii_uppercase` lifted to strings
(`str::to_ascii_uppercase`): only `a`-`z` are mapped. -/
def to_ascii_uppercase (s : String) : String := String.mk (s.data.map Char.toUpper)

/-- Right-pad with spaces to the given width, the effect of the Rust format
specifier `{:<width$}` (a longer string is left unchanged). -/
def pad_right (s : String) (w : Nat) : String :=
  s ++ String.mk (List.replicate (w - s.length) ' ')

/-- A run of `n` spaces, the effect of the Rust format `{:>width$}` on `""`. -/
def spaces (n : Nat) : String := String.mk (List.replicate n ' ')

/-- Model of Rust `Vec::dedup`: remove *consecutive* duplicates. -/
def dedupAdj : List String → List String
  | [] => []
  | [a] => [a]
  | a :: b :: t => if a = b then dedupAdj (b :: t) else a :: dedupAdj (b :: t)

/-! ## `len_without_formatting` (src/main.rs lines 204-218)

Counts chars, except that a backslash is never counted and additionally
swallows the next char (unless that next char is itself a backslash, which
starts a new escape). -/

def lwfGo : List Char → Nat → Bool → Nat
  | [], n, _ => n
  | c :: t, n, esc =>
    if c = '\\' then lwfGo t n true
    else if esc then lwfGo t n false
    else lwfGo t (n + 1) false

def len_without_formatting (param : String) : Nat := lwfGo param.data 0 false

/-- The Rust constant `MAX_PRINT_PARAM_LEN`. -/
def MAX_PRINT_PARAM_LEN : Nat := 80

/-- The Rust constant `MAX_STRUCT_COMMENT_LEN`. -/
def MAX_STRUCT_COMMENT_LEN : Nat := 50

/-! ## Byte-level model of Rust `str` slicing

`print_param` (lines 1224-1245) slices the parameter type with *byte*
indices (`str::len`, `str::get`).  A `get` on a range whose endpoints are not
UTF-8 char boundaries returns `None`, and the source calls `.unwrap()` on the
result.  We model the type as its UTF-8 byte sequence (`List Nat`, each
element < 256) and a failed `unwrap` as `none`. -/

/-- Model of Rust `str::is_char_boundary`: index 0 and the length are
boundaries, an in-range index is a boundary iff the byte there is not a UTF-8
continuation byte (`b & 0xC0 ≠ 0x80`, i.e. `b / 64 ≠ 2`), and an index past
the end is not a boundary. -/
def is_char_boundary (bytes : List Nat) (i : Nat) : Bool :=
  if i = 0 then true
  else if i = bytes.length then true
  else if bytes.length < i then false
  else decide (bytes.getD i 0 / 64 ≠ 2)

/-- Model of Rust `str::get` with a `a..b` range: `Some` slice iff `a ≤ b`
and both endpoints are char boundaries. -/
def rust_get (bytes : List Nat) (a b : Nat) : Option (List Nat) :=
  if a ≤ b ∧ is_char_boundary bytes a = true ∧ is_char_boundary bytes b = true then
    some ((bytes.take b).drop a)
  else none

/-- Byte-level model of the pointer-reformatting prologue of `print_param`
(src/main.rs lines 1224-1245).  Returns the reformatted type together with
the two-character indirection marker column (`asterisks` in the source), or
`none` when one of the source's `unwrap()` calls would panic.  The source:

    let mut asterisks = "  ";
    let mut formatted_type = pi.par_type;  let typelen = len;
    if !empty && get(typelen-1..typelen).unwrap() == "*" {
        asterisks = " *"; formatted_type = get(..typelen-1).unwrap();
        if typelen > 1 && formatted_type.get(typelen-2..typelen-1).unwrap() == "*" {
            asterisks = "**"; formatted_type = par_type.get(..typelen-2).unwrap();
        } else if typelen > 1 && formatted_type.get(typelen-2..typelen-1).unwrap() == "(" {
            asterisks = "(*"; formatted_type = par_type.get(..typelen-2).unwrap();
        }
    }
-/
def print_param_norm (par_type : List Nat) : Option (List Nat × String) :=
  let typelen := par_type.length
  if typelen = 0 then some (par_type, "  ")
  else
    match rust_get par_type (typelen - 1) typelen with
    | none => none
    | some s1 =>
      if s1 = [42] then
        match rust_get par_type 0 (typelen - 1) with
        | none => none
        | some ft =>
          if 1 < typelen then
            match rust_get ft (typelen - 2) (typelen - 1) with
            | none => none
            | some s2 =>
              if s2 = [42] then
                match rust_get par_type 0 (typelen - 2) with
                | none => none
                | some ft2 => some (ft2, "**")
              else if s2 = [40] then
                match rust_get par_type 0 (typelen - 2) with
                | none => none
                | some ft2 => some (ft2, "(*")
              else some (ft, " *")
          else some (ft, " *")
      else some (par_type, "  ")

/-- Char-level rendering of the same pointer reformatting, used by the
char-level page model below.  It agrees with `print_param_norm` on types made
of single-byte (ASCII) chars, which is the only regime in which the byte
version does not panic anyway. -/
def format_pointer_type (par_type : String) : String × String :=
  let n := par_type.length
  if n = 0 then (par_type, "  ")
  else if par_type.data.getLast? = some '*' then
    if 1 < n then
      let prev := par_type.data.getD (n - 2) ' '
      if prev = '*' then (String.mk (par_type.data.take (n - 2)), "**")
      else if prev = '(' then (String.mk (par_type.data.take (n - 2)), "(*")
      else (String.mk (par_type.data.take (n - 1)), " *")
    else (String.mk (par_type.data.take (n - 1)), " *")
  else (par_type, "  ")

/-! ## Data model (src/main.rs lines 108-201) -/

/-- `FnParam`: a function parameter, also used for structure members. -/
structure FnParam where
  par_name : String
  par_type : String
  par_refid : Option String
  par_args : String
  par_desc : String
  par_brief : String
deriving DecidableEq, Repr

/-- `ReturnVal`: one tagged return value. -/
structure ReturnVal where
  ret_name : String
  ret_desc : String
deriving DecidableEq, Repr

inductive StructureType where
  | Unknown : StructureType
  | Enum : StructureType
  | Struct : StructureType
deriving DecidableEq, Repr

structure StructureInfo where
  str_type : StructureType
  str_name : String
  str_brief : String
  str_description : String
  str_members : List FnParam
deriving DecidableEq, Repr

def StructureInfo.new : StructureInfo :=
  { str_type := StructureType.Unknown, str_name := "", str_brief := "",
    str_description := "", str_members := [] }

/-- Collected `#define`s, printed on the General page. -/
structure HashDefine where
  hd_name : String
  hd_init : String
  hd_brief : String
  hd_desc : String
deriving DecidableEq, Repr

/-- `FunctionInfo`: the information for one function (one output Document). -/
structure FunctionInfo where
  fn_type : String
  fn_name : String
  fn_def : String
  fn_argsstring : String
  fn_brief : String
  fn_detail : String
  fn_returnval : String
  fn_note : String
  fn_args : List FnParam
  fn_defines : List HashDefine
  fn_retvals : List ReturnVal
  fn_refids : List String
deriving DecidableEq, Repr

def FunctionInfo.new : FunctionInfo :=
  { fn_type := "", fn_name := "", fn_def := "", fn_argsstring := "", fn_brief := "",
    fn_detail := "", fn_returnval := "", fn_note := "", fn_args := [],
    fn_defines := [], fn_retvals := [], fn_refids := [] }

/-! ## The markup event source

The `xml` crate's reader is a forward-only event stream; we model the stream
as a list.  With `whitespace_to_characters` and `ignore_comments` set, the
source code only distinguishes start elements (with attributes), character
data, end elements and the end-of-document event; everything else falls into
catch-all arms, modelled by `other`.  Running off the end of the list models
a stream read failure (`none`). -/

inductive XmlEvent where
  | startElement (name : String) (attrs : List (String × String)) : XmlEvent
  | characters (s : String) : XmlEvent
  | endElement (name : String) : XmlEvent
  | endDocument : XmlEvent
  | other : XmlEvent
deriving DecidableEq, Repr

/-- `get_attr` (src/main.rs lines 221-231): first attribute of that name,
or `""`. -/
def get_attr (attrs : List (String × String)) (attrname : String) : String :=
  match attrs.find? (fun a => a.1 == attrname) with
  | some a => a.2
  | none => ""

/-- The `HashMap<String, StructureInfo>` is modelled as an association list
(the hash map's iteration order is unspecified, so any list order is a
faithful choice). -/
abbrev Structures := List (String × StructureInfo)

def lookupA (m : Structures) (k : String) : Option StructureInfo :=
  match List.find? (fun p => p.1 == k) m with
  | some p => some p.2
  | none => none

/-- `HashMap::insert`: replace the entry for the key if present, else add. -/
def insertA (k : String) (v : StructureInfo) (m : Structures) : Structures :=
  (k, v) :: List.filter (fun p => !(p.1 == k)) m

/-- A fresh `StructureInfo` of kind `Struct` (the Resolver's initial value
`StructureInfo::new()` with `str_type = Struct`). -/
def struct_placeholder : StructureInfo :=
  { StructureInfo.new with str_type := StructureType.Struct }

/-! ## The Document Model Builder (src/main.rs lines 234-861)

Each Rust collector loops on `parser.next()`; here each is indexed by fuel
(decremented at every loop iteration and every delegated call) and threads
the remaining event list explicitly.  `none` models a stream read failure or
exhausted fuel; every claim below is conditioned on a `some` result. -/

mutual

/-- `parse_standard_elements` (lines 235-313).  Note that the catch-all arm
consumes no events at all. -/
def parse_standard_elements : Nat → String → List (String × String) → List XmlEvent →
    Option (String × List XmlEvent)
  | 0, _, _, _ => none
  | f + 1, name, attrs, events =>
    if name = "para" then collect_text f "para" "" events
    else if name = "sp" then some (" ", events)
    else if name = "emphasis" then
      match collect_text f "emphasis" "" events with
      | none => none
      | some (t, rest) => some ("\\fB" ++ t ++ "\\fR", rest)
    else if name = "highlight" then
      match collect_text f "highlight" "" events with
      | none => none
      | some (t, rest) =>
        if get_attr attrs "class" = "normal" then some (t, rest)
        else some ("\\fB" ++ t ++ "\\fR", rest)
    else if name = "computeroutput" then collect_text f "computeroutput" "" events
    else if name = "codeline" then collect_text f "codeline" "" events
    else if name = "programlisting" then
      match collect_text f "programlisting" "" events with
      | none => none
      | some (t, rest) => some ("\n.nf\n" ++ t ++ "\n.fi\n", rest)
    else if name = "itemizedlist" then
      match collect_text f "itemizedlist" "" events with
      | none => none
      | some (t, rest) => some ("\n" ++ t ++ "\n", rest)
    else if name = "listitem" then
      match collect_text f "listitem" "" events with
      | none => none
      | some (t, rest) => some ("\n* " ++ t, rest)
    else if name = "parameternamelist" ∨ name = "parameteritem" ∨ name = "parameterlist" ∨
            name = "parameterdescription" ∨ name = "parametername" then
      collect_text f name "" events
    else if name = "note" then
      match collect_text f "note" "" events with
      | none => none
      | some (t, rest) => some (t ++ "\n", rest)
    else if name = "ref" then collect_text f "ref" "" events
    else if name = "simplesect" then collect_text f "simplesect" "" events
    else if name = "xreftitle" ∨ name = "xrefdescription" ∨ name = "xrefsect" then
      match collect_text f name "" events with
      | none => none
      | some (_, rest) => some ("", rest)
    else some ("", events)

/-- `collect_text` (lines 589-618): the main text collector; returns only at
the end element matching its stop tag `elem_name`, with the accumulated text
right-trimmed. -/
def collect_text : Nat → String → String → List XmlEvent →
    Option (String × List XmlEvent)
  | 0, _, _, _ => none
  | _ + 1, _, _, [] => none
  | f + 1, elem_name, text, e :: rest =>
    match e with
    | XmlEvent.startElement name attrs =>
      match parse_standard_elements f name attrs rest with
      | none => none
      | some (t, rest') => collect_text f elem_name (text ++ t) rest'
    | XmlEvent.characters s => collect_text f elem_name (text ++ s) rest
    | XmlEvent.endElement name =>
      if name = elem_name then some (rtrim text, rest)
      else collect_text f elem_name text rest
    | _ => collect_text f elem_name text rest

/-- `collect_text_and_refid` (lines 316-351): like `collect_text` but also
captures the `refid` attribute of any `ref` element; returns at the *first*
end element it observes directly, whatever its tag. -/
def collect_text_and_refid : Nat → String → Option String → List XmlEvent →
    Option ((String × Option String) × List XmlEvent)
  | 0, _, _, _ => none
  | _ + 1, _, _, [] => none
  | f + 1, text, refid, e :: rest =>
    match e with
    | XmlEvent.startElement name attrs =>
      if name = "ref" then
        match collect_text f "ref" "" rest with
        | none => none
        | some (t, rest') =>
          collect_text_and_refid f (text ++ t) (some (get_attr attrs "refid")) rest'
      else
        match parse_standard_elements f name attrs rest with
        | none => none
        | some (t, rest') => collect_text_and_refid f (text ++ t) refid rest'
    | XmlEvent.characters s => collect_text_and_refid f (text ++ s) refid rest
    | XmlEvent.endElement _ => some ((rtrim text, refid), rest)
    | _ => collect_text_and_refid f text refid rest

/-- `collect_retval` (lines 354-393). -/
def collect_retval : Nat → String → String → String → List XmlEvent →
    Option (ReturnVal × List XmlEvent)
  | 0, _, _, _, _ => none
  | _ + 1, _, _, _, [] => none
  | f + 1, elem_name, ret_name, ret_desc, e :: rest =>
    match e with
    | XmlEvent.startElement name _ =>
      if name = "parameternamelist" then
        match collect_text f "parameternamelist" "" rest with
        | none => none
        | some (t, rest') => collect_retval f elem_name (trimBoth t) ret_desc rest'
      else if name = "parameterdescription" then
        match collect_text f "parameterdescription" "" rest with
        | none => none
        | some (t, rest') => collect_retval f elem_name ret_name (trimBoth t) rest'
      else
        match collect_text f name "" rest with
        | none => none
        | some (_, rest') => collect_retval f elem_name ret_name ret_desc rest'
    | XmlEvent.characters _ => collect_retval f elem_name ret_name ret_desc rest
    | XmlEvent.endElement name =>
      if name = elem_name then some ({ ret_name := ret_name, ret_desc := ret_desc }, rest)
      else collect_retval f elem_name ret_name ret_desc rest
    | _ => collect_retval f elem_name ret_name ret_desc rest

/-- `collect_retvals` (lines 396-431). -/
def collect_retvals : Nat → String → List ReturnVal → List XmlEvent →
    Option (List ReturnVal × List XmlEvent)
  | 0, _, _, _ => none
  | _ + 1, _, _, [] => none
  | f + 1, elem_name, rvs, e :: rest =>
    match e with
    | XmlEvent.startElement name _ =>
      if name = "parameteritem" then
        match collect_retval f "parameteritem" "" "" rest with
        | none => none
        | some (rv, rest') => collect_retvals f elem_name (rvs ++ [rv]) rest'
      else
        match collect_text f name "" rest with
        | none => none
        | some (_, rest') => collect_retvals f elem_name rvs rest'
    | XmlEvent.characters _ => collect_retvals f elem_name rvs rest
    | XmlEvent.endElement name =>
      if name = elem_name then some (rvs, rest)
      else collect_retvals f elem_name rvs rest
    | _ => collect_retvals f elem_name rvs rest

/-- `collect_parameter_item` (lines 434-473). -/
def collect_parameter_item : Nat → String → String → String → List XmlEvent →
    Option ((String × String) × List XmlEvent)
  | 0, _, _, _, _ => none
  | _ + 1, _, _, _, [] => none
  | f + 1, elem_name, par_name, par_desc, e :: rest =>
    match e with
    | XmlEvent.startElement name _ =>
      if name = "parameternamelist" then
        match collect_text f "parameternamelist" "" rest with
        | none => none
        | some (t, rest') => collect_parameter_item f elem_name (trimBoth t) par_desc rest'
      else if name = "parameterdescription" then
        match collect_text f "parameterdescription" "" rest with
        | none => none
        | some (t, rest') => collect_parameter_item f elem_name par_name (trimBoth t) rest'
      else
        match collect_text f name "" rest with
        | none => none
        | some (_, rest') => collect_parameter_item f elem_name par_name par_desc rest'
    | XmlEvent.characters _ => collect_parameter_item f elem_name par_name par_desc rest
    | XmlEvent.endElement name =>
      if name = elem_name then some ((par_name, par_desc), rest)
      else collect_parameter_item f elem_name par_name par_desc rest
    | _ => collect_parameter_item f elem_name par_name par_desc rest

/-- `collect_params` (lines 475-516): merges a parsed description into every
already-collected parameter with a matching name. -/
def collect_params : Nat → String → List FnParam → List XmlEvent →
    Option (List FnParam × List XmlEvent)
  | 0, _, _, _ => none
  | _ + 1, _, _, [] => none
  | f + 1, elem_name, params, e :: rest =>
    match e with
    | XmlEvent.startElement name _ =>
      if name = "parameteritem" then
        match collect_parameter_item f "parameteritem" "" "" rest with
        | none => none
        | some ((pname, pdesc), rest') =>
          let params' := params.map fun p =>
            if p.par_name = pname then { p with par_desc := pdesc } else p
          collect_params f elem_name params' rest'
      else
        match collect_text f name "" rest with
        | none => none
        | some (_, rest') => collect_params f elem_name params rest'
    | XmlEvent.characters _ => collect_params f elem_name params rest
    | XmlEvent.endElement name =>
      if name = elem_name then some (params, rest)
      else collect_params f elem_name params rest
    | _ => collect_params f elem_name params rest

/-- `collect_detail_bits` (lines 520-584): the `detaileddescription`
dispatcher.  The local accumulators `text`, `returns`, `notes`, `retvals`
are merged into `function` only at the matching end element. -/
def collect_detail_bits : Nat → String → FunctionInfo → String → String → String →
    List ReturnVal → List XmlEvent → Option (FunctionInfo × List XmlEvent)
  | 0, _, _, _, _, _, _, _ => none
  | _ + 1, _, _, _, _, _, _, [] => none
  | f + 1, elem_name, function, text, returns, notes, retvals, e :: rest =>
    match e with
    | XmlEvent.startElement name attrs =>
      if name = "para" then
        match collect_detail_bits f "para" function "" "" "" [] rest with
        | none => none
        | some (fn', rest') =>
          collect_detail_bits f elem_name { fn' with fn_detail := fn'.fn_detail ++ "\n" }
            text returns notes retvals rest'
      else if name = "parameterlist" then
        if get_attr attrs "kind" = "retval" then
          match collect_retvals f "parameterlist" [] rest with
          | none => none
          | some (rvs, rest') =>
            collect_detail_bits f elem_name function text returns notes rvs rest'
        else if get_attr attrs "kind" = "param" then
          match collect_params f "parameterlist" function.fn_args rest with
          | none => none
          | some (args', rest') =>
            collect_detail_bits f elem_name { function with fn_args := args' }
              text returns notes retvals rest'
        else
          match collect_text f "parameterlist" "" rest with
          | none => none
          | some (t, rest') =>
            collect_detail_bits f elem_name function (text ++ t) returns notes retvals rest'
      else if name = "simplesect" then
        if get_attr attrs "kind" = "return" then
          match collect_text f "simplesect" "" rest with
          | none => none
          | some (t, rest') =>
            collect_detail_bits f elem_name function text (returns ++ t) notes retvals rest'
        else if get_attr attrs "kind" = "note" then
          match collect_text f "simplesect" "" rest with
          | none => none
          | some (t, rest') =>
            collect_detail_bits f elem_name function text returns (notes ++ t) retvals rest'
        else
          match collect_text f "simplesect" "" rest with
          | none => none
          | some (t, rest') =>
            collect_detail_bits f elem_name function (text ++ t) returns notes retvals rest'
      else
        match parse_standard_elements f name attrs rest with
        | none => none
        | some (t, rest') =>
          collect_detail_bits f elem_name function (text ++ t) returns notes retvals rest'
    | XmlEvent.characters s =>
      collect_detail_bits f elem_name function (text ++ s) returns notes retvals rest
    | XmlEvent.endElement name =>
      if name = elem_name then
        some ({ function with
                  fn_detail := function.fn_detail ++ rtrim text,
                  fn_returnval := function.fn_returnval ++ returns,
                  fn_note := function.fn_note ++ notes,
                  fn_retvals := function.fn_retvals ++ retvals }, rest)
      else collect_detail_bits f elem_name function text returns notes retvals rest
    | _ => collect_detail_bits f elem_name function text returns notes retvals rest

/-- `collect_function_param` (lines 620-662).  A `ref` seen inside any child
element registers a `StructureType.Struct` placeholder under its refid when
none is present yet; the procedure returns at the first end element it
observes directly (whatever its tag). -/
def collect_function_param : Nat → Structures → String → String → Option String →
    List XmlEvent → Option (FnParam × Structures × List XmlEvent)
  | 0, _, _, _, _, _ => none
  | _ + 1, _, _, _, _, [] => none
  | f + 1, structures, par_name, par_type, par_refid, e :: rest =>
    match e with
    | XmlEvent.startElement name _ =>
      match collect_text_and_refid f "" none rest with
      | none => none
      | some ((tmp, refid), rest') =>
        let structures' :=
          match refid with
          | some r =>
            if lookupA structures r = none then
              insertA r { str_type := StructureType.Struct, str_name := tmp,
                          str_brief := "", str_description := "", str_members := [] } structures
            else structures
          | none => structures
        let par_type' := if name = "type" then tmp else par_type
        let par_refid' := if name = "type" then refid else par_refid
        let par_name' := if name = "declname" then tmp else par_name
        collect_function_param f structures' par_name' par_type' par_refid' rest'
    | XmlEvent.endElement _ =>
      some ({ par_name := par_name, par_type := par_type, par_refid := par_refid,
              par_args := "", par_desc := "", par_brief := "" }, structures, rest)
    | _ => collect_function_param f structures par_name par_type par_refid rest

/-- `collect_function_info` (lines 664-733): builds one function Document;
at the closing `memberdef` the accumulated refids are sorted
(`sort_unstable`) and stripped of consecutive duplicates (`dedup`). -/
def collect_function_info : Nat → Structures → FunctionInfo → List XmlEvent →
    Option (FunctionInfo × Structures × List XmlEvent)
  | 0, _, _, _ => none
  | _ + 1, _, _, [] => none
  | f + 1, structures, function, e :: rest =>
    match e with
    | XmlEvent.startElement name _ =>
      if name = "type" then
        match collect_text f "type" "" rest with
        | none => none
        | some (t, rest') => collect_function_info f structures { function with fn_type := t } rest'
      else if name = "definition" then
        match collect_text f "definition" "" rest with
        | none => none
        | some (t, rest') => collect_function_info f structures { function with fn_def := t } rest'
      else if name = "argsstring" then
        match collect_text f "argsstring" "" rest with
        | none => none
        | some (t, rest') =>
          collect_function_info f structures { function with fn_argsstring := t } rest'
      else if name = "name" ∨ name = "compoundname" then
        match collect_text f name "" rest with
        | none => none
        | some (t, rest') => collect_function_info f structures { function with fn_name := t } rest'
      else if name = "param" then
        match collect_function_param f structures "" "" none rest with
        | none => none
        | some (param, structures', rest') =>
          let function' :=
            { function with
                fn_refids :=
                  match param.par_refid with
                  | some r => function.fn_refids ++ [r]
                  | none => function.fn_refids,
                fn_args := function.fn_args ++ [param] }
          collect_function_info f structures' function' rest'
      else if name = "briefdescription" then
        match collect_text f "briefdescription" "" rest with
        | none => none
        | some (t, rest') => collect_function_info f structures { function with fn_brief := t } rest'
      else if name = "detaileddescription" then
        match collect_detail_bits f "detaileddescription" function "" "" "" [] rest with
        | none => none
        | some (fn', rest') => collect_function_info f structures fn' rest'
      else
        match collect_text f name "" rest with
        | none => none
        | some (_, rest') => collect_function_info f structures function rest'
    | XmlEvent.characters _ => collect_function_info f structures function rest
    | XmlEvent.endElement name =>
      if name = "memberdef" then
        some ({ function with
                  fn_refids :=
                    dedupAdj (List.insertionSort (fun a b => a ≤ b) function.fn_refids) },
              structures, rest)
      else collect_function_info f structures function rest
    | _ => collect_function_info f structures function rest

/-- `collect_define` (lines 735-780).  The catch-all start arm consumes no
events. -/
def collect_define : Nat → String → String → String → String → List XmlEvent →
    Option (HashDefine × List XmlEvent)
  | 0, _, _, _, _, _ => none
  | _ + 1, _, _, _, _, [] => none
  | f + 1, hd_name, hd_init, hd_brief, hd_desc, e :: rest =>
    match e with
    | XmlEvent.startElement name _ =>
      if name = "name" then
        match collect_text f "name" "" rest with
        | none => none
        | some (t, rest') => collect_define f t hd_init hd_brief hd_desc rest'
      else if name = "initializer" then
        match collect_text f "initializer" "" rest with
        | none => none
        | some (t, rest') => collect_define f hd_name t hd_brief hd_desc rest'
      else if name = "briefdescription" then
        match collect_text f "briefdescription" "" rest with
        | none => none
        | some (t, rest') => collect_define f hd_name hd_init t hd_desc rest'
      else if name = "detaileddescription" then
        match collect_text f "detaileddescription" "" rest with
        | none => none
        | some (t, rest') => collect_define f hd_name hd_init hd_brief t rest'
      else collect_define f hd_name hd_init hd_brief hd_desc rest
    | XmlEvent.characters _ => collect_define f hd_name hd_init hd_brief hd_desc rest
    | XmlEvent.endElement name =>
      if name = "memberdef" then
        some ({ hd_name := hd_name, hd_init := hd_init, hd_brief := hd_brief,
                hd_desc := hd_desc }, rest)
      else collect_define f hd_name hd_init hd_brief hd_desc rest
    | XmlEvent.endDocument =>
      some ({ hd_name := hd_name, hd_init := hd_init, hd_brief := hd_brief,
              hd_desc := hd_desc }, rest)
    | _ => collect_define f hd_name hd_init hd_brief hd_desc rest

/-- `read_structure_member` (lines 864-913): returns at the first end
element it observes directly (whatever its tag). -/
def read_structure_member : Nat → String → String → String → String → String →
    List XmlEvent → Option (FnParam × List XmlEvent)
  | 0, _, _, _, _, _, _ => none
  | _ + 1, _, _, _, _, _, [] => none
  | f + 1, par_name, par_type, par_desc, par_brief, par_args, e :: rest =>
    match e with
    | XmlEvent.startElement name _ =>
      if name = "name" then
        match collect_text f "name" "" rest with
        | none => none
        | some (t, rest') => read_structure_member f t par_type par_desc par_brief par_args rest'
      else if name = "type" then
        match collect_text f "type" "" rest with
        | none => none
        | some (t, rest') => read_structure_member f par_name t par_desc par_brief par_args rest'
      else if name = "argsstring" then
        match collect_text f "argsstring" "" rest with
        | none => none
        | some (t, rest') => read_structure_member f par_name par_type par_desc par_brief t rest'
      else if name = "detaileddescription" then
        match collect_text f "detaileddescription" "" rest with
        | none => none
        | some (t, rest') =>
          read_structure_member f par_name par_type (trimBoth t) par_brief par_args rest'
      else if name = "briefdescription" then
        match collect_text f "briefdescription" "" rest with
        | none => none
        | some (t, rest') =>
          read_structure_member f par_name par_type par_desc (trimBoth t) par_args rest'
      else
        match collect_text f name "" rest with
        | none => none
        | some (_, rest') => read_structure_member f par_name par_type par_desc par_brief par_args rest'
    | XmlEvent.characters _ => read_structure_member f par_name par_type par_desc par_brief par_args rest
    | XmlEvent.endElement _ =>
      some ({ par_name := par_name, par_type := par_type, par_refid := none,
              par_args := par_args, par_desc := par_desc, par_brief := par_brief }, rest)
    | _ => read_structure_member f par_name par_type par_desc par_brief par_args rest

/-- `collect_enum` (lines 915-962): returns at the first end element it
observes directly, or at end-of-document. -/
def collect_enum : Nat → StructureInfo → List XmlEvent →
    Option (StructureInfo × List XmlEvent)
  | 0, _, _ => none
  | _ + 1, _, [] => none
  | f + 1, sinfo, e :: rest =>
    match e with
    | XmlEvent.startElement name _ =>
      if name = "name" then
        match collect_text f "name" "" rest with
        | none => none
        | some (t, rest') => collect_enum f { sinfo with str_name := t } rest'
      else if name = "enumvalue" then
        match read_structure_member f "" "" "" "" "" rest with
        | none => none
        | some (m, rest') =>
          collect_enum f { sinfo with str_members := sinfo.str_members ++ [m] } rest'
      else if name = "briefdescription" then
        match collect_text f "briefdescription" "" rest with
        | none => none
        | some (t, rest') => collect_enum f { sinfo with str_brief := t } rest'
      else if name = "detaileddescription" then
        match collect_text f "detaileddescription" "" rest with
        | none => none
        | some (t, rest') => collect_enum f { sinfo with str_description := t } rest'
      else
        match collect_text f name "" rest with
        | none => none
        | some (_, rest') => collect_enum f sinfo rest'
    | XmlEvent.characters _ => collect_enum f sinfo rest
    | XmlEvent.endElement _ => some (sinfo, rest)
    | XmlEvent.endDocument => some (sinfo, rest)
    | _ => collect_enum f sinfo rest

/-- `read_structure` (lines 966-1016): reads a structure body from its own
file, returning at the closing `compounddef`.  Unknown start tags consume
nothing. -/
def read_structure : Nat → StructureInfo → List XmlEvent →
    Option (StructureInfo × List XmlEvent)
  | 0, _, _ => none
  | _ + 1, _, [] => none
  | f + 1, sinfo, e :: rest =>
    match e with
    | XmlEvent.startElement name _ =>
      if name = "compoundname" then
        match collect_text f "compoundname" "" rest with
        | none => none
        | some (t, rest') => read_structure f { sinfo with str_name := t } rest'
      else if name = "briefdescription" then
        match collect_text f "briefdescription" "" rest with
        | none => none
        | some (t, rest') => read_structure f { sinfo with str_brief := t } rest'
      else if name = "includes" then
        match collect_text f "includes" "" rest with
        | none => none
        | some (_, rest') => read_structure f sinfo rest'
      else if name = "detaileddescription" then
        match collect_text f "detaileddescription" "" rest with
        | none => none
        | some (t, rest') => read_structure f { sinfo with str_description := t } rest'
      else if name = "memberdef" then
        match read_structure_member f "" "" "" "" "" rest with
        | none => none
        | some (m, rest') =>
          read_structure f { sinfo with str_members := sinfo.str_members ++ [m] } rest'
      else read_structure f sinfo rest
    | XmlEvent.characters _ => read_structure f sinfo rest
    | XmlEvent.endElement name =>
      if name = "compounddef" then some (sinfo, rest)
      else read_structure f sinfo rest
    | _ => read_structure f sinfo rest

/-- `read_structure_file` (lines 1019-1061): reads one auxiliary structure
file to its end-of-document, returning the refid found on `compounddef`
together with the structure. -/
def read_structure_file : Nat → StructureInfo → String → List XmlEvent →
    Option ((String × StructureInfo) × List XmlEvent)
  | 0, _, _, _ => none
  | _ + 1, _, _, [] => none
  | f + 1, sinfo, refid, e :: rest =>
    match e with
    | XmlEvent.startElement name attrs =>
      if name = "compounddef" then
        match read_structure f struct_placeholder rest with
        | none => none
        | some (s, rest') => read_structure_file f s (get_attr attrs "id") rest'
      else if name = "briefdescription" then
        match collect_text f "briefdescription" "" rest with
        | none => none
        | some (t, rest') => read_structure_file f { sinfo with str_brief := t } refid rest'
      else if name = "detaileddescription" then
        match collect_text f "detaileddescription" "" rest with
        | none => none
        | some (t, rest') => read_structure_file f { sinfo with str_description := t } refid rest'
      else read_structure_file f sinfo refid rest
    | XmlEvent.characters _ => read_structure_file f sinfo refid rest
    | XmlEvent.endElement _ => read_structure_file f sinfo refid rest
    | XmlEvent.endDocument => some ((refid, sinfo), rest)
    | _ => read_structure_file f sinfo refid rest

/-- `read_file` (lines 783-861): the top-level dispatcher for one input
file.  At end-of-document the synthesized whole-document (General) entry is
finalized (name := header file, defines := collected defines) and appended
last.  Returns (documents, structures, header file name). -/
def read_file : Nat → String → List FunctionInfo → List HashDefine → FunctionInfo →
    Structures → List XmlEvent →
    Option (List FunctionInfo × Structures × String)
  | 0, _, _, _, _, _, _ => none
  | _ + 1, _, _, _, _, _, [] => none
  | f + 1, headerfile, functions, defines, general, structures, e :: rest =>
    match e with
    | XmlEvent.startElement name attrs =>
      if name = "memberdef" then
        let kind := get_attr attrs "kind"
        if kind = "function" then
          match collect_function_info f structures FunctionInfo.new rest with
          | none => none
          | some (fn, structures', rest') =>
            read_file f headerfile (functions ++ [fn]) defines general structures' rest'
        else if kind = "define" then
          match collect_define f "" "" "" "" rest with
          | none => none
          | some (hd, rest') =>
            read_file f headerfile functions (defines ++ [hd]) general structures rest'
        else if kind = "enum" then
          match collect_enum f { StructureInfo.new with str_type := StructureType.Enum } rest with
          | none => none
          | some (si, rest') =>
            read_file f headerfile functions defines general
              (insertA (get_attr attrs "id") si structures) rest'
        else if kind = "typedef" then
          match collect_text f "memberdef" "" rest with
          | none => none
          | some (_, rest') => read_file f headerfile functions defines general structures rest'
        else read_file f headerfile functions defines general structures rest
      else if name = "compoundname" then
        if headerfile = "unknown.h" then
          match collect_text f "compoundname" "" rest with
          | none => none
          | some (t, rest') => read_file f t functions defines general structures rest'
        else read_file f headerfile functions defines general structures rest
      else if name = "briefdescription" then
        match collect_text f "briefdescription" "" rest with
        | none => none
        | some (t, rest') =>
          read_file f headerfile functions defines
            { general with fn_brief := general.fn_brief ++ t } structures rest'
      else if name = "detaileddescription" then
        match collect_detail_bits f "detaileddescription" general "" "" "" [] rest with
        | none => none
        | some (general', rest') =>
          read_file f headerfile functions defines general' structures rest'
      else
        match parse_standard_elements f name attrs rest with
        | none => none
        | some (_, rest') => read_file f headerfile functions defines general structures rest'
    | XmlEvent.characters _ => read_file f headerfile functions defines general structures rest
    | XmlEvent.endElement _ => read_file f headerfile functions defines general structures rest
    | XmlEvent.endDocument =>
      some (functions ++ [{ general with fn_name := headerfile, fn_defines := defines }],
            structures, headerfile)
    | _ => read_file f headerfile functions defines general structures rest

end

/-! ## The Structure Resolver (src/main.rs lines 1064-1096) -/

/-- `read_structures_files`: second pass over the placeholder map.  `fs`
abstracts the filesystem (`File::open`): the events of the per-structure XML
file, or `none` when the file is missing/unreadable.  Enum entries are
copied directly; `Unknown` entries are discarded; `Struct` entries are
re-read from `<xml_dir>/<refid>.xml`, tolerating a missing file or a failed
parse by simply skipping the entry. -/
def read_structures_files (fuel : Nat) (fs : String → Option (List XmlEvent))
    (xml_dir : String) : List (String × StructureInfo) → Structures → Structures
  | [], filled => filled
  | (refid, s) :: rest, filled =>
    match s.str_type with
    | StructureType.Enum =>
      read_structures_files fuel fs xml_dir rest (insertA refid s filled)
    | StructureType.Unknown => read_structures_files fuel fs xml_dir rest filled
    | StructureType.Struct =>
      match fs (xml_dir ++ "/" ++ refid ++ ".xml") with
      | none => read_structures_files fuel fs xml_dir rest filled
      | some events =>
        match read_structure_file fuel struct_placeholder "" events with
        | none => read_structures_files fuel fs xml_dir rest filled
        | some ((rid, new_s), _) =>
          read_structures_files fuel fs xml_dir rest (insertA rid new_s filled)

/-! ## The Layout/Formatting Engine (src/main.rs lines 1164-1501)

Emission is modelled as pure functions producing the written lines. -/

/-- Kernel-friendly model of Rust `str::starts_with`. -/
def starts_with (s pre : String) : Bool := pre.data.isPrefixOf s.data

/-- Model of Rust `str::lines` (`\r` handling elided: the embedded strings
contain no carriage returns): split on newlines, with no empty final line
for a trailing newline. -/
def rust_lines (s : String) : List String :=
  let l := s.splitOn "\n"
  if l.getLast? = some "" then l.dropLast else l

/-- The word-wrapping state of `print_long_structure_comment`
(lines 1201-1217): finished comment lines, the words on the current line,
and the running column counter (`column` in the source, started at 7). -/
structure PlscState where
  finished : List (List String)
  current : List String
  col : Nat
deriving DecidableEq, Repr

def plsc_init : PlscState := { finished := [], current := [], col := 7 }

/-- One loop iteration of `print_long_structure_comment`: add the word's
length to the column; when the column passes 80 start a new comment line
(resetting the counter to 7) and place the word there. -/
def plsc_step (st : PlscState) (word : String) : PlscState :=
  let col' := st.col + word.length
  if 80 < col' then { finished := st.finished ++ [st.current], current := [word], col := 7 }
  else { st with current := st.current ++ [word], col := col' }

/-- `print_long_structure_comment` (lines 1201-1217): emitted lines. -/
def print_long_structure_comment (comment : String) : List String :=
  let st := (split_whitespace comment).foldl plsc_step plsc_init
  ["    \\fP/*"] ++
    (st.finished ++ [st.current]).map
      (fun ws => "     *" ++ String.join (ws.map (fun w => " " ++ w))) ++
    ["     */"]

/-- The output of `print_param` for one entry, split by its three write
sites: the optional preceding block comment (emitted when the unformatted
description length exceeds `MAX_STRUCT_COMMENT_LEN`), the entry line itself,
and the optional inline trailing comment appended to the entry line. -/
structure ParamRendering where
  pr_block : Option (List String)
  pr_line : String
  pr_inline : Option String
deriving DecidableEq, Repr

/-- `print_param` (lines 1221-1269), char-level model (the byte-indexed
pointer slicing itself is `print_param_norm`; on single-byte chars the two
agree, and on multi-byte chars the Rust code panics before writing).
The `pad_width` subtractions are on `usize`; at both call sites
`name_field_width` bounds `par_name.len() + par_args.len()` whenever the
inline branch is taken, so the `Nat` truncation is never exercised. -/
def print_param (pi : FnParam) (type_field_width name_field_width : Nat)
    (bold : Bool) (delimeter : String) : ParamRendering :=
  let ft := format_pointer_type pi.par_type
  let comment_len := len_without_formatting pi.par_desc
  let block :=
    if MAX_STRUCT_COMMENT_LEN < comment_len then some (print_long_structure_comment pi.par_desc)
    else none
  let line :=
    (if bold then "    \\fB" else "    \\fR") ++
      pad_right ft.1 type_field_width ++ ft.2 ++ "\\fI" ++ pi.par_name ++ "\\fB" ++
      pi.par_args ++ "\\fR" ++ delimeter
  let inl :=
    if 0 < comment_len ∧ comment_len ≤ MAX_STRUCT_COMMENT_LEN ∧ 0 < name_field_width then
      let pad_width :=
        1 + (name_field_width - pi.par_name.length - pi.par_args.length) - delimeter.length
      some ("\\fP " ++ spaces pad_width ++ " /* " ++ pi.par_desc ++ " */")
    else none
  { pr_block := block, pr_line := line, pr_inline := inl }

/-- Collapse a `ParamRendering` into its written lines: block comment lines
first, then the entry line with any inline comment appended. -/
def render_param (r : ParamRendering) : List String :=
  r.pr_block.getD [] ++ [r.pr_line ++ r.pr_inline.getD ""]

/-- The member loop of `print_structure` (lines 1301-1309): delimiter `;`
for every member except the last, which gets none. -/
def print_structure_members (tw nw : Nat) : List FnParam → List String
  | [] => []
  | [p] => render_param (print_param p tw nw false "")
  | p :: rest => render_param (print_param p tw nw false ";") ++ print_structure_members tw nw rest

/-- `print_structure` (lines 1272-1316). -/
def print_structure (si : StructureInfo) : List String :=
  let max_param_type_length :=
    si.str_members.foldl (fun acc p => if acc < p.par_type.length then p.par_type.length else acc) 0
  let max_param_name_length :=
    si.str_members.foldl
      (fun acc p => if acc < p.par_name.length + p.par_args.length then
          p.par_name.length + p.par_args.length else acc) 0
  (if si.str_brief = "" then [] else [si.str_brief]) ++
    (if si.str_description = "" then [] else [si.str_description]) ++
    ["", ".nf", "\\fB",
     (match si.str_type with
      | StructureType.Enum => "enum " ++ si.str_name ++ " \x7b"
      | StructureType.Struct => "struct " ++ si.str_name ++ " \x7b"
      | StructureType.Unknown => "??? " ++ si.str_name ++ " \x7b")] ++
    print_structure_members max_param_type_length max_param_name_length si.str_members ++
    ["\x7d;\\fP", ".PP", ".fi"]

/-- `print_long_string` (lines 1165-1188), one line step: a line starting
`.nf` enters no-fill mode (after a blank line); outside no-fill mode each
line is followed by `.PP`; a line starting `.fi` leaves no-fill mode. -/
def print_long_string_step (st : Bool × List String) (l : String) : Bool × List String :=
  let started_nf := starts_with l ".nf" = true
  let in_nf1 := if started_nf then true else st.1
  let out1 := if started_nf then st.2 ++ [""] else st.2
  let out2 := out1 ++ [l]
  let out3 := if in_nf1 then out2 else out2 ++ [".PP"]
  if starts_with l ".fi" = true then (false, out3 ++ [""]) else (in_nf1, out3)

def print_long_string (s : String) : List String :=
  ((rust_lines s).foldl print_long_string_step (false, [])).2

/-! ## Per-document emission (`print_man_page`, lines 1319-1501) -/

/-- The formatting options handed to the emission half (the relevant subset
of the Rust `Opt`; `header_pfx` is the source's `header_prefix` field). -/
structure Opt where
  print_params : Bool
  print_general : Bool
  headerfile : String
  header_pfx : String
  man_section : Nat
  output_dir : String
  package_name : String
  header : String
deriving DecidableEq, Repr

def th_line (opt : Opt) (man_date : String) (function : FunctionInfo) : String :=
  ".TH " ++ to_ascii_uppercase function.fn_name ++ " " ++ toString opt.man_section ++ " " ++
    man_date ++ " \"" ++ opt.package_name ++ "\" \"" ++ opt.header ++ "\""

def name_section (function : FunctionInfo) : List String :=
  [".SH NAME", ".PP",
   if function.fn_brief = "" then function.fn_name
   else function.fn_name ++ " \\- " ++ function.fn_brief]

/-- The synopsis parameter loop (lines 1387-1395): delimiter `,` for every
parameter except the last; `name_field_width` is passed as 0, so no inline
comments are produced here. -/
def synopsis_param_lines (tw : Nat) : List FnParam → List String
  | [] => []
  | [p] => render_param (print_param p tw 0 true "")
  | p :: rest => render_param (print_param p tw 0 true ",") ++ synopsis_param_lines tw rest

/-- The synopsis type-column width (lines 1353-1357): the longest parameter
type, ignoring types at or beyond `MAX_PRINT_PARAM_LEN`. -/
def synopsis_type_width (args : List FnParam) : Nat :=
  args.foldl
    (fun acc p =>
      if p.par_type.length < MAX_PRINT_PARAM_LEN ∧ acc < p.par_type.length then p.par_type.length
      else acc) 0

def synopsis_section (opt : Opt) (function : FunctionInfo) : List String :=
  [".SH SYNOPSIS", ".PP", ".nf",
   ".B #include <" ++ opt.header_pfx ++ opt.headerfile ++ ">"] ++
    (if function.fn_def = "" then []
     else
       [".sp", "\\fB" ++ function.fn_def ++ "\\fP("] ++
         synopsis_param_lines (synopsis_type_width function.fn_args) function.fn_args ++
         [");", ".fi"])

/-- Parameters with both a non-empty type and description (`num_param_descs`
in the source, lines 1361-1363). -/
def num_param_descs (args : List FnParam) : Nat :=
  (args.filter (fun p => !(p.par_desc == "") && !(p.par_type == ""))).length

def parameters_section (opt : Opt) (function : FunctionInfo) : List String :=
  if opt.print_params = true ∧ 0 < num_param_descs function.fn_args then
    [".SH PARAMETERS", ".PP"] ++
      function.fn_args.flatMap (fun p => [".TP", "\\fB" ++ p.par_name ++ "\\fP " ++ p.par_desc])
  else []

def description_section (function : FunctionInfo) : List String :=
  if function.fn_detail = "" then []
  else [".SH DESCRIPTION", ".PP"] ++ print_long_string function.fn_detail

/-- The structures-section loop (lines 1416-1429): a refid missing from the
resolved map is skipped; the section header is printed before the first
refid that does resolve. -/
def structures_loop (m : Structures) : Bool → List String → List String
  | _, [] => []
  | first, r :: rest =>
    match lookupA m r with
    | none => structures_loop m first rest
    | some s =>
      (if first then [".SH STRUCTURES", ".PP"] else []) ++ print_structure s ++
        structures_loop m false rest

def structures_section (m : Structures) (refids : List String) : List String :=
  if refids = [] then [] else structures_loop m true refids

def return_value_section (function : FunctionInfo) : List String :=
  if function.fn_returnval = "" then []
  else
    [".SH RETURN VALUE", ".PP", function.fn_returnval, ".br"] ++
      function.fn_retvals.flatMap
        (fun rv => [".TP", "\\fB" ++ rv.ret_name ++ "\\fR " ++ rv.ret_desc]) ++
      [".PP"]

/-- The per-define output (lines 1446-1463): only names equal to their own
ASCII upper-casing are printed. -/
def define_lines (d : HashDefine) : List String :=
  if d.hd_name = to_ascii_uppercase d.hd_name then
    (if d.hd_brief = "" then [] else [".PP", d.hd_brief, ".br"]) ++
      (if d.hd_desc = "" then [] else [".br", d.hd_desc, ".br"]) ++
      ["#define " ++ d.hd_name ++ " " ++ d.hd_init, ".br"]
  else []

def defines_section (defines : List HashDefine) : List String :=
  if defines = [] then []
  else [".SH DEFINES", ".PP"] ++ defines.flatMap define_lines

def note_section (function : FunctionInfo) : List String :=
  if function.fn_note = "" then []
  else [".SH NOTE", ".PP"] ++ print_long_string function.fn_note

def see_also_entry (name : String) (sec : Nat) (delim : String) : String :=
  "\\fI" ++ name ++ "\\fP(" ++ toString sec ++ ")" ++ delim

/-- The SEE ALSO loop (lines 1477-1489): `num_func` counts *every* Document
(including skipped ones); the printed delimiter is empty exactly when the
Document is the last of the whole sequence. -/
def see_also_loop (total : Nat) (sec : Nat) (cur : String) :
    Nat → List FunctionInfo → List String
  | _, [] => []
  | num_func, func :: rest =>
    (if func.fn_name ≠ cur then
       [see_also_entry func.fn_name sec (if num_func + 1 = total then "" else ", ")]
     else []) ++ see_also_loop total sec cur (num_func + 1) rest

def see_also_section (opt : Opt) (function : FunctionInfo)
    (functions : List FunctionInfo) : List String :=
  [".SH SEE ALSO", ".PP", ".nh", ".ad l"] ++
    see_also_loop functions.length opt.man_section function.fn_name 0 functions

def copyright_section (copyright : String) : List String :=
  if copyright = "" then [] else [".SH COPYRIGHT", ".PP", copyright]

/-- All lines written for one Document's page, in emission order. -/
def print_man_page_lines (opt : Opt) (man_date : String) (function : FunctionInfo)
    (functions : List FunctionInfo) (structures : Structures) (copyright : String) :
    List String :=
  [".\\\"  Automatically generated man page, do not edit",
   th_line opt man_date function] ++
    name_section function ++
    synopsis_section opt function ++
    parameters_section opt function ++
    description_section function ++
    structures_section structures function.fn_refids ++
    return_value_section function ++
    defines_section function.fn_defines ++
    note_section function ++
    see_also_section opt function functions ++
    copyright_section copyright

def man_file_of (opt : Opt) (function : FunctionInfo) : String :=
  opt.output_dir ++ "/" ++ function.fn_name ++ "." ++ toString opt.man_section

/-- `print_man_page` (lines 1319-1501): skip the General page silently when
not requested; otherwise create the output file via the abstract `sink`
(`File::create`) and emit.  A failed create is reported (the error value)
and returned as `Err`, exactly as in the source. -/
def print_man_page (opt : Opt) (man_date : String) (function : FunctionInfo)
    (functions : List FunctionInfo) (structures : Structures) (copyright : String)
    (sink : String → Bool) : Except String (Option (String × List String)) :=
  if function.fn_name = opt.headerfile ∧ opt.print_general = false then Except.ok none
  else
    let man_file := man_file_of opt function
    if sink man_file then
      Except.ok (some (man_file, print_man_page_lines opt man_date function functions structures copyright))
    else Except.error ("Cannot create man file " ++ man_file)

def except_is_ok : Except String (Option (String × List String)) → Bool
  | Except.ok _ => true
  | Except.error _ => false

/-- The per-Document loop of `print_man_pages` (lines 1535-1537).  The
source calls `print_man_page(...).unwrap()`: an `Err` panics, aborting the
whole batch.  The result is the list of artifacts actually written before
any panic, and whether a panic occurred. -/
def print_man_pages_go (opt : Opt) (man_date : String) (functions_all : List FunctionInfo)
    (structures : Structures) (copyright : String) (sink : String → Bool) :
    List FunctionInfo → List (String × List String) →
    List (String × List String) × Bool
  | [], acc => (acc, false)
  | fn :: rest, acc =>
    match print_man_page opt man_date fn functions_all structures copyright sink with
    | Except.error _ => (acc, true)
    | Except.ok none => print_man_pages_go opt man_date functions_all structures copyright sink rest acc
    | Except.ok (some out) =>
      print_man_pages_go opt man_date functions_all structures copyright sink rest (acc ++ [out])

/-- `print_man_pages` (lines 1505-1539); the date/copyright computation is a
driver concern and enters only as the opaque `man_date`/`copyright`
strings. -/
def print_man_pages (opt : Opt) (man_date : String) (functions : List FunctionInfo)
    (structures : Structures) (copyright : String) (sink : String → Bool) :
    List (String × List String) × Bool :=
  print_man_pages_go opt man_date functions structures copyright sink functions []

/-! ## Spec-side renderings of claims (for refutation)

These definitions transcribe claim statements, to be compared with the code
models above. -/

/-- Claim C1's function-pointer clause as stated: a type string ending in
`(` (byte 40) has its trailing marker matched and the function-pointer
indirection category `(*` recorded. -/
def c1_spec_fnptr (bytes : List Nat) : Prop :=
  bytes.getLast? = some 40 → (print_param_norm bytes).map Prod.snd = some "(*"

/-- Claim C10's first half as stated: the slicing succeeds for every
non-empty type whose final character is single-byte (ASCII, final byte
< 128). -/
def c10_spec_ascii_safe : Prop :=
  ∀ bytes : List Nat, bytes ≠ [] → bytes.getLast?.getD 0 < 128 →
    (print_param_norm bytes).isSome = true

/-- Claim C2 as stated, for one `print_param` call: a non-empty description
of unformatted length at most the budget is rendered inline, any other
non-empty description as a preceding block comment (together covering every
non-empty description). -/
def c2_spec_desc_modes (pi : FnParam) (tfw nfw : Nat) (bold : Bool) (delim : String) : Prop :=
  ¬ pi.par_desc = "" →
    (len_without_formatting pi.par_desc ≤ MAX_STRUCT_COMMENT_LEN →
       (print_param pi tfw nfw bold delim).pr_inline.isSome = true) ∧
    (MAX_STRUCT_COMMENT_LEN < len_without_formatting pi.par_desc →
       (print_param pi tfw nfw bold delim).pr_block.isSome = true)

/-- The event stream used against claim C8: well-formed content of a
`param` element, `<weird><declname>x</declname></weird></param>`, presented
to `collect_function_param` immediately after the `param` open tag. -/
def c8_events : List XmlEvent :=
  [XmlEvent.startElement "weird" [], XmlEvent.startElement "declname" [],
   XmlEvent.characters "x", XmlEvent.endElement "declname",
   XmlEvent.endElement "weird", XmlEvent.endElement "param"]

/-- Claim C8 as stated, instanced at `collect_function_param` on
`c8_events`: if the procedure returns only upon observing the element-close
of the tag it was entered for (`param`, the stream's final event), then the
remaining stream it hands back is empty. -/
def c8_spec_stop_tag : Prop :=
  (collect_function_param 10 [] "" "" none c8_events).map (fun r => r.2.2) = some []

/-- The Document sequence used against claims C6 and C7: two Documents named
`a` and `b`. -/
def c67_doc_a : FunctionInfo := { FunctionInfo.new with fn_name := "a" }

def c67_doc_b : FunctionInfo := { FunctionInfo.new with fn_name := "b" }

/-- Claim C7 as stated: the SEE ALSO body names every other Document in
original order, each entry comma-delimited except the last printed entry,
which is undelimited. -/
def c7_spec_see_also (functions : List FunctionInfo) (cur : String) (sec : Nat) : Prop :=
  see_also_loop functions.length sec cur 0 functions =
    (let others := (functions.map FunctionInfo.fn_name).filter (fun n => !(n == cur))
     others.enum.map (fun p =>
       see_also_entry p.2 sec (if p.1 + 1 = others.length then "" else ", ")))

/-- The options used for the concrete C6 scenario. -/
def c6_opt : Opt :=
  { print_params := false, print_general := false, headerfile := "h.h",
    header_pfx := "", man_section := 3, output_dir := ".",
    package_name := "P", header := "Manual" }

/-- A sink (`File::create`) that fails exactly for Document `a`'s artifact
`./a.3` and succeeds for every other path. -/
def c6_sink : String → Bool := fun s => !(s == "./a.3")

/-- Claim C6 as stated: no failure aborts the whole batch — every Document
whose own emission succeeds (and which is not the suppressed General page)
has its artifact in the batch output. -/
def c6_spec_continue_on_error (opt : Opt) (man_date : String) (fns : List FunctionInfo)
    (structures : Structures) (copyright : String) (sink : String → Bool) : Prop :=
  ∀ fn ∈ fns,
    except_is_ok (print_man_page opt man_date fn fns structures copyright sink) = true →
    (fn.fn_name = opt.headerfile ∧ opt.print_general = false) ∨
    ∃ out ∈ (print_man_pages opt man_date fns structures copyright sink).1,
      out.1 = man_file_of opt fn

/-- The event stream for the C4 witness: one function `memberdef` whose two
parameters both reference the structure `r1`. -/
def c4_events : List XmlEvent :=
  [XmlEvent.startElement "param" [], XmlEvent.startElement "type" [],
   XmlEvent.startElement "ref" [("refid", "r1")], XmlEvent.characters "struct foo",
   XmlEvent.endElement "ref", XmlEvent.endElement "type", XmlEvent.endElement "param",
   XmlEvent.startElement "param" [], XmlEvent.startElement "type" [],
   XmlEvent.startElement "ref" [("refid", "r1")], XmlEvent.characters "struct foo",
   XmlEvent.endElement "ref", XmlEvent.endElement "type", XmlEvent.endElement "param",
   XmlEvent.endElement "memberdef"]

/-- The placeholder map used for the concrete C5 scenario: one structure
refid `r1`, registered as a `Struct` placeholder, whose XML file is
missing. -/
def c5_entries : List (String × StructureInfo) :=
  [("r1", struct_placeholder)]

/-! ## Helper lemmas: byte-level slicing -/

theorem icb_zero (bytes : List Nat) : is_char_boundary bytes 0 = true := by
  simp [is_char_boundary]

theorem icb_length (bytes : List Nat) : is_char_boundary bytes bytes.length = true := by
  unfold is_char_boundary
  split_ifs <;> simp_all

theorem icb_of_lt (bytes : List Nat) (i : Nat) (hi : i < bytes.length)
    (h : bytes.getD i 0 / 64 ≠ 2) : is_char_boundary bytes i = true := by
  unfold is_char_boundary
  split_ifs with h1 h2 h3
  · rfl
  · rfl
  · omega
  · simpa using h

theorem icb_false_of (bytes : List Nat) (i : Nat) (h0 : i ≠ 0) (hi : i < bytes.length)
    (h : bytes.getD i 0 / 64 = 2) : is_char_boundary bytes i = false := by
  unfold is_char_boundary
  split_ifs with h1 h2 h3
  · omega
  · omega
  · rfl
  · simpa using h

theorem rust_get_eval (bytes : List Nat) (a b : Nat) (hab : a ≤ b)
    (ha : is_char_boundary bytes a = true) (hb : is_char_boundary bytes b = true) :
    rust_get bytes a b = some ((bytes.take b).drop a) := by
  simp [rust_get, hab, ha, hb]

theorem rust_get_none_left (bytes : List Nat) (a b : Nat)
    (ha : is_char_boundary bytes a = false) : rust_get bytes a b = none := by
  simp [rust_get, ha]

theorem getD_append_right (l₁ l₂ : List Nat) (n : Nat) (h : l₁.length ≤ n) :
    (l₁ ++ l₂).getD n 0 = l₂.getD (n - l₁.length) 0 := by
  simp [List.getD_eq_getElem?_getD, List.getElem?_append_right h]

/-- `print_param_norm` on a type ending `**`: strip both, record `**`. -/
theorem ppn_double_star (ys : List Nat) :
    print_param_norm (ys ++ [42, 42]) = some (ys, "**") := by
  have hsplit : ys ++ [42, 42] = (ys ++ [42]) ++ [42] := by simp
  have hb1 : is_char_boundary (ys ++ [42, 42]) (ys.length + 1) = true := by
    apply icb_of_lt _ _ (by simp)
    rw [getD_append_right _ _ _ (by omega)]
    simp
  have hb0 : is_char_boundary (ys ++ [42, 42]) ys.length = true := by
    apply icb_of_lt _ _ (by simp)
    rw [getD_append_right _ _ _ (by omega)]
    simp
  have hblen : is_char_boundary (ys ++ [42, 42]) (ys.length + 2) = true := by
    have := icb_length (ys ++ [42, 42])
    simpa using this
  have e1 : rust_get (ys ++ [42, 42]) (ys.length + 2 - 1) (ys.length + 2) = some [42] := by
    rw [show ys.length + 2 - 1 = ys.length + 1 by omega,
        rust_get_eval _ _ _ (by omega) hb1 hblen,
        List.take_of_length_le (by simp), hsplit, List.drop_left' (by simp)]
  have e2 : rust_get (ys ++ [42, 42]) 0 (ys.length + 2 - 1) = some (ys ++ [42]) := by
    rw [show ys.length + 2 - 1 = ys.length + 1 by omega,
        rust_get_eval _ _ _ (by omega) (icb_zero _) hb1,
        hsplit, List.take_left' (by simp), List.drop_zero]
  have hb1' : is_char_boundary (ys ++ [42]) (ys.length + 1) = true := by
    have := icb_length (ys ++ [42])
    simpa using this
  have hb0' : is_char_boundary (ys ++ [42]) ys.length = true := by
    apply icb_of_lt _ _ (by simp)
    rw [getD_append_right _ _ _ (by omega)]
    simp
  have e3 : rust_get (ys ++ [42]) (ys.length + 2 - 2) (ys.length + 2 - 1) = some [42] := by
    rw [show ys.length + 2 - 2 = ys.length by omega,
        show ys.length + 2 - 1 = ys.length + 1 by omega,
        rust_get_eval _ _ _ (by omega) hb0' hb1',
        List.take_of_length_le (by simp), List.drop_left]
  have e4 : rust_get (ys ++ [42, 42]) 0 (ys.length + 2 - 2) = some ys := by
    rw [show ys.length + 2 - 2 = ys.length by omega,
        rust_get_eval _ _ _ (by omega) (icb_zero _) hb0,
        List.take_left, List.drop_zero]
  simp only [print_param_norm, List.length_append, List.length_cons, List.length_nil]
  rw [if_neg (by omega)]
  rw [show ys.length + (0 + 1 + 1) = ys.length + 2 by omega] at *
  rw [e1]
  simp only [reduceIte, e2, if_pos (by omega : (1:Nat) < ys.length + 2), e3, e4]

/-- `print_param_norm` on a type ending `(*`: strip both, record `(*`. -/
theorem ppn_fnptr (ys : List Nat) :
    print_param_norm (ys ++ [40, 42]) = some (ys, "(*") := by
  have hsplit : ys ++ [40, 42] = (ys ++ [40]) ++ [42] := by simp
  have hb1 : is_char_boundary (ys ++ [40, 42]) (ys.length + 1) = true := by
    apply icb_of_lt _ _ (by simp)
    rw [getD_append_right _ _ _ (by omega)]
    simp
  have hb0 : is_char_boundary (ys ++ [40, 42]) ys.length = true := by
    apply icb_of_lt _ _ (by simp)
    rw [getD_append_right _ _ _ (by omega)]
    simp
  have hblen : is_char_boundary (ys ++ [40, 42]) (ys.length + 2) = true := by
    have := icb_length (ys ++ [40, 42])
    simpa using this
  have e1 : rust_get (ys ++ [40, 42]) (ys.length + 2 - 1) (ys.length + 2) = some [42] := by
    rw [show ys.length + 2 - 1 = ys.length + 1 by omega,
        rust_get_eval _ _ _ (by omega) hb1 hblen,
        List.take_of_length_le (by simp), hsplit, List.drop_left' (by simp)]
  have e2 : rust_get (ys ++ [40, 42]) 0 (ys.length + 2 - 1) = some (ys ++ [40]) := by
    rw [show ys.length + 2 - 1 = ys.length + 1 by omega,
        rust_get_eval _ _ _ (by omega) (icb_zero _) hb1,
        hsplit, List.take_left' (by simp), List.drop_zero]
  have hb1' : is_char_boundary (ys ++ [40]) (ys.length + 1) = true := by
    have := icb_length (ys ++ [40])
    simpa using this
  have hb0' : is_char_boundary (ys ++ [40]) ys.length = true := by
    apply icb_of_lt _ _ (by simp)
    rw [getD_append_right _ _ _ (by omega)]
    simp
  have e3 : rust_get (ys ++ [40]) (ys.length + 2 - 2) (ys.length + 2 - 1) = some [40] := by
    rw [show ys.length + 2 - 2 = ys.length by omega,
        show ys.length + 2 - 1 = ys.length + 1 by omega,
        rust_get_eval _ _ _ (by omega) hb0' hb1',
        List.take_of_length_le (by simp), List.drop_left]
  have e4 : rust_get (ys ++ [40, 42]) 0 (ys.length + 2 - 2) = some ys := by
    rw [show ys.length + 2 - 2 = ys.length by omega,
        rust_get_eval _ _ _ (by omega) (icb_zero _) hb0,
        List.take_left, List.drop_zero]
  simp only [print_param_norm, List.length_append, List.length_cons, List.length_nil]
  rw [if_neg (by omega)]
  rw [show ys.length + (0 + 1 + 1) = ys.length + 2 by omega] at *
  rw [e1]
  simp only [reduceIte, e2, if_pos (by omega : (1:Nat) < ys.length + 2), e3, e4]
  simp

/-- `print_param_norm` on a type ending in a single `*` preceded by an
ordinary (non-`*`, non-`(`, non-continuation) byte: strip the `*`, record
`" *"`. -/
theorem ppn_single_star (ys : List Nat) (c : Nat) (hc42 : c ≠ 42) (hc40 : c ≠ 40)
    (hdiv : c / 64 ≠ 2) :
    print_param_norm (ys ++ [c, 42]) = some (ys ++ [c], " *") := by
  have hsplit : ys ++ [c, 42] = (ys ++ [c]) ++ [42] := by simp
  have hb1 : is_char_boundary (ys ++ [c, 42]) (ys.length + 1) = true := by
    apply icb_of_lt _ _ (by simp)
    rw [getD_append_right _ _ _ (by omega)]
    simp
  have hblen : is_char_boundary (ys ++ [c, 42]) (ys.length + 2) = true := by
    have := icb_length (ys ++ [c, 42])
    simpa using this
  have e1 : rust_get (ys ++ [c, 42]) (ys.length + 2 - 1) (ys.length + 2) = some [42] := by
    rw [show ys.length + 2 - 1 = ys.length + 1 by omega,
        rust_get_eval _ _ _ (by omega) hb1 hblen,
        List.take_of_length_le (by simp), hsplit, List.drop_left' (by simp)]
  have e2 : rust_get (ys ++ [c, 42]) 0 (ys.length + 2 - 1) = some (ys ++ [c]) := by
    rw [show ys.length + 2 - 1 = ys.length + 1 by omega,
        rust_get_eval _ _ _ (by omega) (icb_zero _) hb1,
        hsplit, List.take_left' (by simp), List.drop_zero]
  have hb1' : is_char_boundary (ys ++ [c]) (ys.length + 1) = true := by
    have := icb_length (ys ++ [c])
    simpa using this
  have hb0' : is_char_boundary (ys ++ [c]) ys.length = true := by
    apply icb_of_lt _ _ (by simp)
    rw [getD_append_right _ _ _ (by omega)]
    simpa using hdiv
  have e3 : rust_get (ys ++ [c]) (ys.length + 2 - 2) (ys.length + 2 - 1) = some [c] := by
    rw [show ys.length + 2 - 2 = ys.length by omega,
        show ys.length + 2 - 1 = ys.length + 1 by omega,
        rust_get_eval _ _ _ (by omega) hb0' hb1',
        List.take_of_length_le (by simp), List.drop_left]
  simp only [print_param_norm, List.length_append, List.length_cons, List.length_nil]
  rw [if_neg (by omega)]
  rw [show ys.length + (0 + 1 + 1) = ys.length + 2 by omega] at *
  rw [e1]
  simp only [reduceIte, e2, if_pos (by omega : (1:Nat) < ys.length + 2), e3]
  rw [if_neg (by simpa using hc42), if_neg (by simpa using hc40)]

/-- `print_param_norm` on the lone type `*`. -/
theorem ppn_lone_star : print_param_norm [42] = some ([], " *") := by decide

/-- `print_param_norm` on a type ending in an ordinary (non-`*`,
non-continuation) byte: no marker, type unchanged. -/
theorem ppn_no_marker (ys : List Nat) (c : Nat) (hc42 : c ≠ 42) (hdiv : c / 64 ≠ 2) :
    print_param_norm (ys ++ [c]) = some (ys ++ [c], "  ") := by
  have hb0 : is_char_boundary (ys ++ [c]) ys.length = true := by
    apply icb_of_lt _ _ (by simp)
    rw [getD_append_right _ _ _ (by omega)]
    simpa using hdiv
  have hblen : is_char_boundary (ys ++ [c]) (ys.length + 1) = true := by
    have := icb_length (ys ++ [c])
    simpa using this
  have e1 : rust_get (ys ++ [c]) (ys.length + 1 - 1) (ys.length + 1) = some [c] := by
    rw [show ys.length + 1 - 1 = ys.length by omega,
        rust_get_eval _ _ _ (by omega) hb0 hblen,
        List.take_of_length_le (by simp), List.drop_left]
  simp only [print_param_norm, List.length_append, List.length_cons, List.length_nil]
  rw [if_neg (by omega)]
  rw [show ys.length + (0 + 1) = ys.length + 1 by omega] at *
  rw [e1]
  dsimp only
  rw [if_neg (show ¬([c] = [42]) from by simpa using hc42)]

/-- `print_param_norm` on the empty type. -/
theorem ppn_empty : print_param_norm [] = some ([], "  ") := by decide

/-- The first `unwrap` of `print_param` panics when the final byte is a
UTF-8 continuation byte (the final character is multi-byte). -/
theorem ppn_cont_last (ys : List Nat) (c : Nat) (hys : ys ≠ []) (hdiv : c / 64 = 2) :
    print_param_norm (ys ++ [c]) = none := by
  have hb : is_char_boundary (ys ++ [c]) ys.length = false := by
    apply icb_false_of _ _ (by simpa using List.length_pos.2 hys |>.ne') (by simp)
    rw [getD_append_right _ _ _ (by omega)]
    simpa using hdiv
  have e1 : rust_get (ys ++ [c]) (ys.length + 1 - 1) (ys.length + 1) = none := by
    rw [show ys.length + 1 - 1 = ys.length by omega]
    exact rust_get_none_left _ _ _ hb
  simp only [print_param_norm, List.length_append, List.length_cons, List.length_nil]
  rw [if_neg (by omega)]
  rw [show ys.length + (0 + 1) = ys.length + 1 by omega] at *
  rw [e1]

/-- The double-pointer check of `print_param` panics when the trailing `*`
is immediately preceded by a UTF-8 continuation byte. -/
theorem ppn_cont_before_star (ys : List Nat) (c : Nat) (hys : ys ≠ []) (hdiv : c / 64 = 2) :
    print_param_norm (ys ++ [c, 42]) = none := by
  have hsplit : ys ++ [c, 42] = (ys ++ [c]) ++ [42] := by simp
  have hb1 : is_char_boundary (ys ++ [c, 42]) (ys.length + 1) = true := by
    apply icb_of_lt _ _ (by simp)
    rw [getD_append_right _ _ _ (by omega)]
    simp
  have hblen : is_char_boundary (ys ++ [c, 42]) (ys.length + 2) = true := by
    have := icb_length (ys ++ [c, 42])
    simpa using this
  have e1 : rust_get (ys ++ [c, 42]) (ys.length + 2 - 1) (ys.length + 2) = some [42] := by
    rw [show ys.length + 2 - 1 = ys.length + 1 by omega,
        rust_get_eval _ _ _ (by omega) hb1 hblen,
        List.take_of_length_le (by simp), hsplit, List.drop_left' (by simp)]
  have e2 : rust_get (ys ++ [c, 42]) 0 (ys.length + 2 - 1) = some (ys ++ [c]) := by
    rw [show ys.length + 2 - 1 = ys.length + 1 by omega,
        rust_get_eval _ _ _ (by omega) (icb_zero _) hb1,
        hsplit, List.take_left' (by simp), List.drop_zero]
  have hb0' : is_char_boundary (ys ++ [c]) ys.length = false := by
    apply icb_false_of _ _ (by simpa using List.length_pos.2 hys |>.ne') (by simp)
    rw [getD_append_right _ _ _ (by omega)]
    simpa using hdiv
  have e3 : rust_get (ys ++ [c]) (ys.length + 2 - 2) (ys.length + 2 - 1) = none := by
    rw [show ys.length + 2 - 2 = ys.length by omega]
    exact rust_get_none_left _ _ _ hb0'
  simp only [print_param_norm, List.length_append, List.length_cons, List.length_nil]
  rw [if_neg (by omega)]
  rw [show ys.length + (0 + 1 + 1) = ys.length + 2 by omega] at *
  rw [e1]
  simp only [reduceIte, e2, if_pos (by omega : (1:Nat) < ys.length + 2), e3]

/-- Claim C1 (counterexample): a type string ending in `(` alone — byte
list `[118, 40]`, the string `v(` — is left completely untouched by
`print_param` (marker `"  "`), not stripped and recorded as a function
pointer as the claim states. -/
theorem c1_counterexample : ¬ c1_spec_fnptr [118, 40] := fun h =>
  absurd (h (by decide)) (by decide)

/-- Claim C1 (amended): `print_param`'s pointer normalization acts on types
*ending in `*`*: a trailing `**` is stripped to the double-pointer marker
`**`, a trailing `(*` is stripped to the function-pointer marker `(*`, any
other trailing `*` (whose preceding byte is on a char boundary) is stripped
to the single-pointer marker `" *"`; a type not ending in `*` records no
marker (two spaces) and is emitted unchanged.  A type ending in `(` without
a following `*` is *not* treated as a function pointer. -/
theorem c1_pointer_normalization :
    (∀ ys : List Nat, print_param_norm (ys ++ [42, 42]) = some (ys, "**")) ∧
    (∀ ys : List Nat, print_param_norm (ys ++ [40, 42]) = some (ys, "(*")) ∧
    (∀ ys : List Nat, ∀ c : Nat, c ≠ 42 → c ≠ 40 → c / 64 ≠ 2 →
       print_param_norm (ys ++ [c, 42]) = some (ys ++ [c], " *")) ∧
    print_param_norm [42] = some ([], " *") ∧
    (∀ ys : List Nat, ∀ c : Nat, c ≠ 42 → c / 64 ≠ 2 →
       print_param_norm (ys ++ [c]) = some (ys ++ [c], "  ")) ∧
    print_param_norm [] = some ([], "  ") :=
  ⟨ppn_double_star, ppn_fnptr, ppn_single_star, ppn_lone_star, ppn_no_marker, ppn_empty⟩

/-- Witness for `c1_pointer_normalization` at the concrete types `int*`
(bytes `[105, 110, 116, 42]`) and `int` (bytes `[105, 110, 116]`). -/
theorem c1_pointer_normalization_witness :
    print_param_norm ([105, 110] ++ [116, 42]) = some ([105, 110] ++ [116], " *") ∧
    print_param_norm ([105, 110] ++ [116]) = some ([105, 110] ++ [116], "  ") :=
  ⟨c1_pointer_normalization.2.2.1 [105, 110] 116 (by decide) (by decide) (by decide),
   c1_pointer_normalization.2.2.2.2.1 [105, 110] 116 (by decide) (by decide)⟩

/-- Claim C10 (counterexample): the type `é*` (bytes `[195, 169, 42]`) ends
in the single-byte ASCII character `*`, yet `print_param`'s slicing panics
(the double-pointer check's `get(typelen-2..typelen-1)` lands inside the
multi-byte `é`). -/
theorem c10_counterexample : ¬ c10_spec_ascii_safe := fun h =>
  absurd (h [195, 169, 42] (by decide) (by decide)) (by decide)

/-- Claim C10 (amended): `print_param`'s slicing is well-defined for every
non-empty type ending in an ASCII character other than `*`, and for types
ending in `*` whose penultimate byte is not a UTF-8 continuation byte (in
particular every all-ASCII type); a type whose final character is multi-byte
(its last byte is a continuation byte) makes the first `get` return `None`
and `print_param` panics, and a type ending in `*` immediately preceded by a
continuation byte panics at the double-pointer check. -/
theorem c10_slicing_safety :
    (∀ ys : List Nat, ∀ c : Nat, c < 128 → c ≠ 42 →
        (print_param_norm (ys ++ [c])).isSome = true) ∧
    (∀ ys : List Nat, ∀ c : Nat, c / 64 ≠ 2 →
        (print_param_norm (ys ++ [c, 42])).isSome = true) ∧
    (print_param_norm [42]).isSome = true ∧
    (∀ ys : List Nat, ∀ c : Nat, ys ≠ [] → c / 64 = 2 →
        print_param_norm (ys ++ [c]) = none) ∧
    (∀ ys : List Nat, ∀ c : Nat, ys ≠ [] → c / 64 = 2 →
        print_param_norm (ys ++ [c, 42]) = none) := by
  refine ⟨?_, ?_, by decide, ppn_cont_last, ppn_cont_before_star⟩
  · intro ys c hc h42
    have hdiv : c / 64 ≠ 2 := by
      have h1 : c / 64 ≤ 127 / 64 := Nat.div_le_div_right (by omega)
      omega
    rw [ppn_no_marker ys c h42 hdiv]
    rfl
  · intro ys c hdiv
    by_cases h42 : c = 42
    · subst h42
      rw [ppn_double_star]
      rfl
    · by_cases h40 : c = 40
      · subst h40
        rw [ppn_fnptr]
        rfl
      · rw [ppn_single_star ys c h42 h40 hdiv]
        rfl

/-- Witness for `c10_slicing_safety` at the ASCII type `vo` and the
multi-byte-final type `é` (bytes `[195, 169]`). -/
theorem c10_slicing_safety_witness :
    (print_param_norm ([118] ++ [111])).isSome = true ∧
    print_param_norm ([195] ++ [169]) = none :=
  ⟨c10_slicing_safety.1 [118] 111 (by decide) (by decide),
   c10_slicing_safety.2.2.2.1 [195] 169 (by decide) (by decide)⟩

/-! ## Claim C2: inline vs block comment rendering in `print_param` -/

/-- Claim C2 (counterexample): in the synopsis call of `print_param` the
name-field width is 0, so the short non-empty description `"a"` (unformatted
length 1 ≤ 50) is rendered neither inline nor as a block comment — the two
modes do not cover every non-empty description. -/
theorem c2_counterexample :
    ¬ c2_spec_desc_modes
        { par_name := "count", par_type := "int", par_refid := none,
          par_args := "", par_desc := "a", par_brief := "" } 3 0 true "," := by
  intro h
  exact absurd ((h (by decide)).1 (by decide)) (by decide)

/-- Claim C2 (amended): for every `print_param` call, the inline trailing
comment is produced iff the description's length ignoring escape characters
is in `(0, 50]` *and* the name-field width is non-zero; the preceding block
comment is produced iff that length exceeds 50.  The two modes are mutually
exclusive, and they cover every description of positive unformatted length
whenever the name-field width is non-zero (in the synopsis the width is 0
and short descriptions are dropped). -/
theorem c2_comment_modes (pi : FnParam) (tfw nfw : Nat) (bold : Bool) (delim : String) :
    ((print_param pi tfw nfw bold delim).pr_inline.isSome = true ↔
       (0 < len_without_formatting pi.par_desc ∧
        len_without_formatting pi.par_desc ≤ MAX_STRUCT_COMMENT_LEN ∧ 0 < nfw)) ∧
    ((print_param pi tfw nfw bold delim).pr_block.isSome = true ↔
       MAX_STRUCT_COMMENT_LEN < len_without_formatting pi.par_desc) ∧
    ¬((print_param pi tfw nfw bold delim).pr_inline.isSome = true ∧
      (print_param pi tfw nfw bold delim).pr_block.isSome = true) ∧
    (0 < len_without_formatting pi.par_desc → 0 < nfw →
      (print_param pi tfw nfw bold delim).pr_inline.isSome = true ∨
      (print_param pi tfw nfw bold delim).pr_block.isSome = true) := by
  have hA : (print_param pi tfw nfw bold delim).pr_inline.isSome = true ↔
      (0 < len_without_formatting pi.par_desc ∧
       len_without_formatting pi.par_desc ≤ MAX_STRUCT_COMMENT_LEN ∧ 0 < nfw) := by
    by_cases hi : 0 < len_without_formatting pi.par_desc ∧
        len_without_formatting pi.par_desc ≤ MAX_STRUCT_COMMENT_LEN ∧ 0 < nfw
    · simp [print_param, hi]
    · simp [print_param, hi]
  have hB : (print_param pi tfw nfw bold delim).pr_block.isSome = true ↔
      MAX_STRUCT_COMMENT_LEN < len_without_formatting pi.par_desc := by
    by_cases hb : MAX_STRUCT_COMMENT_LEN < len_without_formatting pi.par_desc
    · simp [print_param, hb]
    · simp [print_param, hb]
  refine ⟨hA, hB, ?_, ?_⟩
  · rintro ⟨h1, h2⟩
    rw [hA] at h1
    rw [hB] at h2
    omega
  · intro hL hn
    by_cases hle : len_without_formatting pi.par_desc ≤ MAX_STRUCT_COMMENT_LEN
    · exact Or.inl (hA.2 ⟨hL, hle, hn⟩)
    · exact Or.inr (hB.2 (by omega))

/-- Witness for `c2_comment_modes`: a member-list call (non-zero name-field
width) renders the short description, here inline. -/
theorem c2_comment_modes_witness :
    (print_param
        { par_name := "count", par_type := "int", par_refid := none,
          par_args := "", par_desc := "a", par_brief := "" } 3 7 false ";").pr_inline.isSome = true ∨
    (print_param
        { par_name := "count", par_type := "int", par_refid := none,
          par_args := "", par_desc := "a", par_brief := "" } 3 7 false ";").pr_block.isSome = true :=
  (c2_comment_modes
      { par_name := "count", par_type := "int", par_refid := none,
        par_args := "", par_desc := "a", par_brief := "" } 3 7 false ";").2.2.2
    (by decide) (by decide)

/-! ## Claim C3: the 80-column word wrap of `print_long_structure_comment` -/

/-- The running column counter never exceeds 80 at the start of a loop
iteration (induction helper). -/
theorem plsc_col_le (ws : List String) :
    ∀ st : PlscState, st.col ≤ 80 → (ws.foldl plsc_step st).col ≤ 80 := by
  induction ws with
  | nil => intro st h; simpa using h
  | cons w rest ih =>
    intro st h
    simp only [List.foldl_cons]
    apply ih
    unfold plsc_step
    by_cases hc : 80 < st.col + w.length
    · rw [if_pos hc]
      dsimp only
      omega
    · rw [if_neg hc]
      simpa using (by omega : st.col + w.length ≤ 80)

/-- Claim C3: in `print_long_structure_comment`'s wrapping loop the running
column count stays at most 80 after placing any sequence of words (so it is
at most 80 before each word is placed), and a new comment line is started
exactly when the running count including the next word would pass 80; the
final conjunct ties the loop state to the emitted lines. -/
theorem c3_word_wrap :
    (∀ ws : List String, (ws.foldl plsc_step plsc_init).col ≤ 80) ∧
    (∀ st : PlscState, ∀ w : String,
       ((plsc_step st w).finished = st.finished ↔ st.col + w.length ≤ 80)) ∧
    (∀ comment : String,
       print_long_structure_comment comment =
         ["    \\fP/*"] ++
           (((split_whitespace comment).foldl plsc_step plsc_init).finished ++
             [((split_whitespace comment).foldl plsc_step plsc_init).current]).map
             (fun ws => "     *" ++ String.join (ws.map (fun w => " " ++ w))) ++
           ["     */"]) := by
  refine ⟨fun ws => plsc_col_le ws plsc_init (by simp [plsc_init]), ?_, fun _ => rfl⟩
  intro st w
  unfold plsc_step
  by_cases hc : 80 < st.col + w.length
  · rw [if_pos hc]
    constructor
    · intro heq
      have := congrArg List.length heq
      simp at this
    · intro hle
      exact absurd hle (by omega)
  · rw [if_neg hc]
    constructor
    · intro _
      omega
    · intro _
      rfl

/-! ## Claim C8: stop-tag discipline of the collectors -/

/-- Claim C8 (counterexample): `collect_function_param`, entered for a
`param` element containing the well-formed fragment
`<weird><declname>x</declname></weird>`, returns upon observing the close of
`weird` — the close of its own `param` tag is still unconsumed in the
returned stream. -/
theorem c8_counterexample : ¬ c8_spec_stop_tag := by
  intro h
  exact absurd h (by unfold c8_spec_stop_tag c8_events; decide)

/-- Claim C8 (amended): the stop-tag-parameterized collectors do return only
on their own tag's close — `collect_text` skips a directly-observed close of
any other tag and returns exactly at its stop tag's close — but
`collect_function_param` and `read_structure_member` return at the *first*
element-close they observe directly, whatever its tag name. -/
theorem c8_stop_tag_discipline :
    (∀ (f : Nat) (elem acc n : String) (rest : List XmlEvent), ¬ n = elem →
       collect_text (f + 1) elem acc (XmlEvent.endElement n :: rest) =
         collect_text f elem acc rest) ∧
    (∀ (f : Nat) (elem acc : String) (rest : List XmlEvent),
       collect_text (f + 1) elem acc (XmlEvent.endElement elem :: rest) =
         some (rtrim acc, rest)) ∧
    (∀ (f : Nat) (st : Structures) (pn pt : String) (pr : Option String) (n : String)
       (rest : List XmlEvent),
       collect_function_param (f + 1) st pn pt pr (XmlEvent.endElement n :: rest) =
         some ({ par_name := pn, par_type := pt, par_refid := pr, par_args := "",
                 par_desc := "", par_brief := "" }, st, rest)) ∧
    (∀ (f : Nat) (pn pt pd pb pa : String) (n : String) (rest : List XmlEvent),
       read_structure_member (f + 1) pn pt pd pb pa (XmlEvent.endElement n :: rest) =
         some ({ par_name := pn, par_type := pt, par_refid := none, par_args := pa,
                 par_desc := pd, par_brief := pb }, rest)) := by
  refine ⟨?_, ?_, fun f st pn pt pr n rest => rfl, fun f pn pt pd pb pa n rest => rfl⟩
  · intro f elem acc n rest h
    simp only [collect_text]
    rw [if_neg h]
  · intro f elem acc rest
    simp [collect_text]

/-- Witness for `c8_stop_tag_discipline`: `collect_text` with stop tag
`para` skips the close of `q` and returns at the close of `para`. -/
theorem c8_stop_tag_discipline_witness :
    collect_text 1 "para" "x " [XmlEvent.endElement "q"] = collect_text 0 "para" "x " [] ∧
    collect_text 1 "para" "x " [XmlEvent.endElement "para"] = some (rtrim "x ", []) :=
  ⟨c8_stop_tag_discipline.1 0 "para" "x " "q" [] (by decide),
   c8_stop_tag_discipline.2.1 0 "para" "x " []⟩

/-! ## Claim C7: the SEE ALSO cross-reference list -/

/-- Claim C7 (counterexample): on the page of Document `b`, the last of the
two-Document sequence `[a, b]`, the only printed SEE ALSO entry (`a`) still
carries the comma delimiter — the last printed entry is not undelimited. -/
theorem c7_counterexample : ¬ c7_spec_see_also [c67_doc_a, c67_doc_b] "b" 3 := by
  intro h
  exact absurd h (by unfold c7_spec_see_also c67_doc_a c67_doc_b; decide)

/-- The SEE ALSO loop in closed form (induction helper): entry `i` of the
sequence is printed iff its name differs from the page's, and its delimiter
is empty iff it is the final Document of the whole sequence. -/
theorem see_also_loop_eq (sec : Nat) (cur : String) (total : Nat) :
    ∀ (fns : List FunctionInfo) (k : Nat),
      see_also_loop total sec cur k fns =
        (List.enumFrom k fns).filterMap (fun p =>
          if p.2.fn_name ≠ cur then
            some (see_also_entry p.2.fn_name sec (if p.1 + 1 = total then "" else ", "))
          else none) := by
  intro fns
  induction fns with
  | nil => intro k; rfl
  | cons fn rest ih =>
    intro k
    simp only [see_also_loop, List.enumFrom, List.filterMap_cons]
    by_cases h : fn.fn_name = cur
    · simp [h, ih (k + 1)]
    · simp [h, ih (k + 1)]

/-- Claim C7 (amended): the SEE ALSO section names, in original sequence
order, every Document whose name differs from the page's own; a printed
entry's delimiter is empty exactly when that Document is the final element
of the whole sequence (`num_func == functions.len()`), so when the final
Document is the page itself every printed entry — including the last —
carries the comma delimiter. -/
theorem c7_see_also (fns : List FunctionInfo) (cur : String) (sec : Nat) :
    see_also_loop fns.length sec cur 0 fns =
      fns.enum.filterMap (fun p =>
        if p.2.fn_name ≠ cur then
          some (see_also_entry p.2.fn_name sec (if p.1 + 1 = fns.length then "" else ", "))
        else none) := by
  have h := see_also_loop_eq sec cur fns.length fns 0
  simpa [List.enum] using h

/-! ## Claim C6: output-sink failure handling -/

/-- Claim C6 (counterexample): with a sink that fails only for Document
`a`'s artifact, Document `b`'s emission would succeed, yet the batch —
which `unwrap`s each per-Document result — aborts at `a` and never emits
`b`. -/
theorem c6_counterexample :
    ¬ c6_spec_continue_on_error c6_opt "2010" [c67_doc_a, c67_doc_b] [] "" c6_sink := by
  intro h
  rcases h c67_doc_b (by decide) (by decide) with h1 | ⟨out, hmem, _⟩
  · exact absurd h1.1 (by decide)
  · have hempty : (print_man_pages c6_opt "2010" [c67_doc_a, c67_doc_b] [] "" c6_sink).1 = [] := by
      decide
    rw [hempty] at hmem
    simp at hmem

/-- Claim C6 (amended): a failure to create one Document's artifact is
reported (the error value) but then aborts the entire batch: the loop
`unwrap`s the failure, so the Documents after the failing one are never
emitted and the run panics. -/
theorem c6_sink_failure_aborts (opt : Opt) (man_date : String)
    (fnsAll : List FunctionInfo) (st : Structures) (cr : String) (sink : String → Bool)
    (fn : FunctionInfo) (post : List FunctionInfo) :
    ∀ (pre : List FunctionInfo),
    (∀ p ∈ pre, except_is_ok (print_man_page opt man_date p fnsAll st cr sink) = true) →
    except_is_ok (print_man_page opt man_date fn fnsAll st cr sink) = false →
    ∀ acc : List (String × List String),
      print_man_pages_go opt man_date fnsAll st cr sink (pre ++ fn :: post) acc =
        ((print_man_pages_go opt man_date fnsAll st cr sink pre acc).1, true) := by
  intro pre
  induction pre with
  | nil =>
    intro _ hfn acc
    simp only [List.nil_append, print_man_pages_go]
    cases hp : print_man_page opt man_date fn fnsAll st cr sink with
    | error e => rfl
    | ok v =>
      rw [hp] at hfn
      simp [except_is_ok] at hfn
  | cons p rest ih =>
    intro hpre hfn acc
    simp only [List.cons_append, print_man_pages_go]
    cases hp : print_man_page opt man_date p fnsAll st cr sink with
    | error e => rfl
    | ok v =>
      cases v with
      | none => exact ih (fun q hq => hpre q (List.mem_cons_of_mem _ hq)) hfn _
      | some out => exact ih (fun q hq => hpre q (List.mem_cons_of_mem _ hq)) hfn _

/-- Witness for `c6_sink_failure_aborts`: the concrete two-Document batch
aborts at `a` with nothing emitted, although `b`'s own emission would have
succeeded. -/
theorem c6_sink_failure_aborts_witness :
    print_man_pages_go c6_opt "2010" [c67_doc_a, c67_doc_b] [] "" c6_sink
        ([] ++ c67_doc_a :: [c67_doc_b]) [] =
      ((print_man_pages_go c6_opt "2010" [c67_doc_a, c67_doc_b] [] "" c6_sink [] []).1, true) :=
  c6_sink_failure_aborts c6_opt "2010" [c67_doc_a, c67_doc_b] [] "" c6_sink
    c67_doc_a [c67_doc_b] [] (by simp) (by decide) []

/-! ## Claim C5: never-resolved placeholders -/

theorem find?_filter_ne (k r : String) (h : ¬ r = k) :
    ∀ m : List (String × StructureInfo),
      List.find? (fun p => p.1 == r) (List.filter (fun p => !(p.1 == k)) m) =
        List.find? (fun p => p.1 == r) m := by
  intro m
  induction m with
  | nil => rfl
  | cons a t ih =>
    have hkr : (k == r) = false := by
      simp only [beq_eq_false_iff_ne, ne_eq]
      intro he
      exact h he.symm
    by_cases hak : a.1 = k
    · simp [List.filter_cons, hak, List.find?_cons, hkr, ih]
    · by_cases har : a.1 = r
      · simp [List.filter_cons, hak, List.find?_cons, har, h]
      · simp [List.filter_cons, hak, List.find?_cons, har, ih]

theorem lookupA_insertA (m : Structures) (k : String) (v : StructureInfo) (r : String) :
    lookupA (insertA k v m) r = if r = k then some v else lookupA m r := by
  by_cases hrk : r = k
  · subst hrk
    simp [insertA, lookupA, List.find?_cons]
  · rw [if_neg hrk]
    have hk2 : (k == r) = false := by
      simp only [beq_eq_false_iff_ne, ne_eq]
      intro he
      exact hrk he.symm
    simp only [insertA, lookupA, List.find?_cons, hk2]
    rw [find?_filter_ne k r hrk m]

/-- Induction helper for claim C5: a refid whose own file is missing, whose
map entries are all `Struct` placeholders, and which no successful file read
resolves to, never enters the resolved map. -/
theorem rsf_not_mem (fuel : Nat) (fs : String → Option (List XmlEvent)) (xml_dir : String)
    (r : String) :
    ∀ (entries : List (String × StructureInfo)) (acc : Structures),
      (∀ s : StructureInfo, (r, s) ∈ entries → s.str_type = StructureType.Struct) →
      fs (xml_dir ++ "/" ++ r ++ ".xml") = none →
      (∀ (k : String) (s : StructureInfo) (events : List XmlEvent)
         (res : (String × StructureInfo) × List XmlEvent),
         (k, s) ∈ entries → fs (xml_dir ++ "/" ++ k ++ ".xml") = some events →
         read_structure_file fuel struct_placeholder "" events = some res →
         ¬ res.1.1 = r) →
      lookupA acc r = none →
      lookupA (read_structures_files fuel fs xml_dir entries acc) r = none := by
  intro entries
  induction entries with
  | nil =>
    intro acc _ _ _ hacc
    simpa [read_structures_files] using hacc
  | cons e rest ih =>
    intro acc h1 h2 h3 hacc
    obtain ⟨k, s⟩ := e
    have h1' : ∀ s' : StructureInfo, (r, s') ∈ rest → s'.str_type = StructureType.Struct :=
      fun s' hs' => h1 s' (List.mem_cons_of_mem _ hs')
    have h3' : ∀ (k' : String) (s' : StructureInfo) (ev : List XmlEvent)
        (res : (String × StructureInfo) × List XmlEvent),
        (k', s') ∈ rest → fs (xml_dir ++ "/" ++ k' ++ ".xml") = some ev →
        read_structure_file fuel struct_placeholder "" ev = some res →
        ¬ res.1.1 = r :=
      fun k' s' ev res hk' => h3 k' s' ev res (List.mem_cons_of_mem _ hk')
    simp only [read_structures_files]
    cases hst : s.str_type with
    | Enum =>
      dsimp only
      apply ih _ h1' h2 h3'
      rw [lookupA_insertA, if_neg ?_]
      · exact hacc
      · intro hrk
        subst hrk
        have := h1 s (List.mem_cons_self _ _)
        rw [hst] at this
        exact absurd this (by simp)
    | Unknown =>
      dsimp only
      exact ih _ h1' h2 h3' hacc
    | Struct =>
      dsimp only
      cases hfs : fs (xml_dir ++ "/" ++ k ++ ".xml") with
      | none => exact ih _ h1' h2 h3' hacc
      | some ev =>
        dsimp only
        cases hrsf : read_structure_file fuel struct_placeholder "" ev with
        | none => exact ih _ h1' h2 h3' hacc
        | some res =>
          obtain ⟨⟨rid, new_s⟩, rest'⟩ := res
          dsimp only
          apply ih _ h1' h2 h3'
          rw [lookupA_insertA, if_neg ?_]
          · exact hacc
          · intro hre
            exact h3 k s ev ((rid, new_s), rest') (List.mem_cons_self _ _) hfs hrsf hre.symm

/-- A refid absent from the resolved map is skipped by the structures-section
loop: the emitted lines are those of the list with that refid erased. -/
theorem structures_loop_skip (m : Structures) (r : String) (hr : lookupA m r = none) :
    ∀ (refids : List String) (first : Bool),
      structures_loop m first refids = structures_loop m first (refids.erase r) := by
  intro refids
  induction refids with
  | nil => intro first; rfl
  | cons x rest ih =>
    intro first
    by_cases hx : x = r
    · subst hx
      rw [List.erase_cons_head]
      simp [structures_loop, hr]
    · rw [List.erase_cons_tail (by simpa using hx)]
      simp only [structures_loop]
      cases hl : lookupA m x with
      | none => exact ih first
      | some s => rw [ih false]

theorem structures_loop_all_none (m : Structures) :
    ∀ (refids : List String) (first : Bool), (∀ x ∈ refids, lookupA m x = none) →
      structures_loop m first refids = [] := by
  intro refids
  induction refids with
  | nil => intro first _; rfl
  | cons x rest ih =>
    intro first h
    simp only [structures_loop]
    rw [h x (List.mem_cons_self _ _)]
    exact ih first (fun y hy => h y (List.mem_cons_of_mem _ hy))

theorem structures_section_none (m : Structures) (refids : List String)
    (h : ∀ x ∈ refids, lookupA m x = none) : structures_section m refids = [] := by
  unfold structures_section
  split
  · rfl
  · exact structures_loop_all_none m refids true h

/-- Claim C5: a refid registered as a (`Struct`-typed) placeholder whose
per-structure XML file is missing — and which the Resolver pass never
matches, i.e. no successful auxiliary read yields it — is absent from the
resolved map; every page skips its structures-section entry (erasing the
refid changes nothing), and when none of a page's refids resolve the
STRUCTURES header is omitted entirely. -/
theorem c5_unresolved_refid (fuel : Nat) (fs : String → Option (List XmlEvent))
    (xml_dir : String) (entries : List (String × StructureInfo)) (r : String)
    (h1 : ∀ s : StructureInfo, (r, s) ∈ entries → s.str_type = StructureType.Struct)
    (h2 : fs (xml_dir ++ "/" ++ r ++ ".xml") = none)
    (h3 : ∀ (k : String) (s : StructureInfo) (events : List XmlEvent)
            (res : (String × StructureInfo) × List XmlEvent),
            (k, s) ∈ entries → fs (xml_dir ++ "/" ++ k ++ ".xml") = some events →
            read_structure_file fuel struct_placeholder "" events = some res →
            ¬ res.1.1 = r) :
    lookupA (read_structures_files fuel fs xml_dir entries []) r = none ∧
    (∀ (first : Bool) (refids : List String),
       structures_loop (read_structures_files fuel fs xml_dir entries []) first refids =
         structures_loop (read_structures_files fuel fs xml_dir entries []) first
           (refids.erase r)) ∧
    (∀ refids : List String,
       (∀ x ∈ refids, lookupA (read_structures_files fuel fs xml_dir entries []) x = none) →
       structures_section (read_structures_files fuel fs xml_dir entries []) refids = []) := by
  have hA := rsf_not_mem fuel fs xml_dir r entries [] h1 h2 h3 rfl
  exact ⟨hA, fun first refids => structures_loop_skip _ r hA refids first,
         fun refids h => structures_section_none _ refids h⟩

/-- Witness for `c5_unresolved_refid`: the single placeholder `r1` with a
missing file stays unresolved and its page omits the STRUCTURES header. -/
theorem c5_unresolved_refid_witness :
    lookupA (read_structures_files 5 (fun _ => none) "xml" c5_entries []) "r1" = none ∧
    structures_section (read_structures_files 5 (fun _ => none) "xml" c5_entries [])
      ["r1"] = [] := by
  have h := c5_unresolved_refid 5 (fun _ => none) "xml" c5_entries "r1"
    (fun s hs => by
      have hmem := List.mem_singleton.1 hs
      have h2 := congrArg (fun p : String × StructureInfo => p.2.str_type) hmem
      simpa using h2)
    rfl
    (fun k s ev res hk hf => absurd hf (by simp))
  exact ⟨h.1, h.2.2 ["r1"] (fun x hx => by rw [List.mem_singleton.1 hx]; exact h.1)⟩

/-! ## Claim C4: sorted, duplicate-free refid lists -/

theorem dedupAdj_subset (x : String) : ∀ l : List String, x ∈ dedupAdj l → x ∈ l := by
  intro l
  induction l with
  | nil => simp [dedupAdj]
  | cons a t ih =>
    cases t with
    | nil => simp [dedupAdj]
    | cons b t2 =>
      simp only [dedupAdj]
      by_cases hab : a = b
      · rw [if_pos hab]
        intro hx
        exact List.mem_cons_of_mem a (ih hx)
      · rw [if_neg hab]
        intro hx
        rcases List.mem_cons.1 hx with hxa | hxt
        · rw [hxa]
          exact List.mem_cons_self _ _
        · exact List.mem_cons_of_mem a (ih hxt)

/-- `sort_unstable` followed by `dedup` (adjacent dedup) yields a sorted,
duplicate-free list: on a sorted input, adjacent dedup removes all
duplicates. -/
theorem sorted_nodup_dedupAdj :
    ∀ l : List String, l.Sorted (fun a b => a ≤ b) →
      (dedupAdj l).Sorted (fun a b => a ≤ b) ∧ (dedupAdj l).Nodup := by
  intro l
  induction l with
  | nil => intro _; simp [dedupAdj]
  | cons a t ih =>
    cases t with
    | nil => intro _; simp [dedupAdj]
    | cons b t2 =>
      intro hs
      have hs' : (b :: t2).Sorted (fun a b => a ≤ b) := (List.sorted_cons.1 hs).2
      obtain ⟨ihs, ihn⟩ := ih hs'
      simp only [dedupAdj]
      by_cases hab : a = b
      · rw [if_pos hab]
        exact ⟨ihs, ihn⟩
      · rw [if_neg hab]
        have hab' : a < b :=
          lt_of_le_of_ne ((List.sorted_cons.1 hs).1 b (List.mem_cons_self _ _)) hab
        constructor
        · rw [List.sorted_cons]
          refine ⟨?_, ihs⟩
          intro c hc
          rcases List.mem_cons.1 (dedupAdj_subset c _ hc) with hcb | hct
          · rw [hcb]
            exact le_of_lt hab'
          · exact le_trans (le_of_lt hab') ((List.sorted_cons.1 hs').1 c hct)
        · rw [List.nodup_cons]
          refine ⟨?_, ihn⟩
          intro hmem
          rcases List.mem_cons.1 (dedupAdj_subset a _ hmem) with hb | ht
          · exact hab hb
          · have hba := (List.sorted_cons.1 hs').1 a ht
            exact absurd (lt_of_lt_of_le hab' hba) (lt_irrefl a)

/-- Claim C4: whenever `collect_function_info` returns a function Document
(at the closing `memberdef`, the moment it is pushed onto the Document
sequence), its `fn_refids` list is sorted and contains no duplicates — even
when several parameters of the function reference the same structure. -/
theorem c4_refids_sorted_dedup :
    ∀ (fuel : Nat) (st : Structures) (fn : FunctionInfo) (events : List XmlEvent)
      (res : FunctionInfo × Structures × List XmlEvent),
      collect_function_info fuel st fn events = some res →
      List.Sorted (fun a b => a ≤ b) res.1.fn_refids ∧ res.1.fn_refids.Nodup := by
  intro fuel
  induction fuel with
  | zero =>
    intro st fn events res h
    simp [collect_function_info] at h
  | succ f ih =>
    intro st fn events res h
    cases events with
    | nil => simp [collect_function_info] at h
    | cons e rest =>
      cases e with
      | startElement name attrs =>
        simp only [collect_function_info] at h
        repeat' split at h
        all_goals first
          | exact ih _ _ _ _ h
          | simp at h
      | characters s =>
        simp only [collect_function_info] at h
        exact ih _ _ _ _ h
      | endElement name =>
        simp only [collect_function_info] at h
        split at h
        · rw [Option.some_inj] at h
          rw [← h]
          exact sorted_nodup_dedupAdj _ (List.sorted_insertionSort _ _)
        · exact ih _ _ _ _ h
      | endDocument =>
        simp only [collect_function_info] at h
        exact ih _ _ _ _ h
      | other =>
        simp only [collect_function_info] at h
        exact ih _ _ _ _ h

/-- Witness for `c4_refids_sorted_dedup`: the concrete function whose two
parameters both reference structure `r1` ends up with the single, trivially
sorted refid list `["r1"]`. -/
theorem c4_refids_sorted_dedup_witness :
    List.Sorted (fun a b => a ≤ b)
      ((collect_function_info 40 [] FunctionInfo.new c4_events).getD
        (FunctionInfo.new, [], [])).1.fn_refids ∧
    ((collect_function_info 40 [] FunctionInfo.new c4_events).getD
        (FunctionInfo.new, [], [])).1.fn_refids.Nodup := by
  cases hh : collect_function_info 40 [] FunctionInfo.new c4_events with
  | none => exact absurd hh (by decide)
  | some res =>
    simp only [Option.getD_some]
    exact c4_refids_sorted_dedup 40 [] FunctionInfo.new c4_events res hh

/-! ## Claim C9: the DEFINES section -/

/-- `collect_detail_bits` never touches `fn_defines`. -/
theorem cdb_preserves_defines :
    ∀ (fuel : Nat) (elem : String) (fn : FunctionInfo) (text returns notes : String)
      (rvs : List ReturnVal) (events : List XmlEvent) (res : FunctionInfo × List XmlEvent),
      collect_detail_bits fuel elem fn text returns notes rvs events = some res →
      res.1.fn_defines = fn.fn_defines := by
  intro fuel
  induction fuel with
  | zero =>
    intro elem fn text returns notes rvs events res h
    simp [collect_detail_bits] at h
  | succ f ih =>
    intro elem fn text returns notes rvs events res h
    cases events with
    | nil => simp [collect_detail_bits] at h
    | cons e rest =>
      cases e with
      | startElement name attrs =>
        simp only [collect_detail_bits] at h
        repeat' split at h
        all_goals first
          | exact Option.noConfusion h
          | exact ih _ _ _ _ _ _ _ _ h
          | (rename_i heq
             rw [ih _ _ _ _ _ _ _ _ h]
             try exact ih _ _ _ _ _ _ _ _ heq)
      | characters s =>
        simp only [collect_detail_bits] at h
        exact ih _ _ _ _ _ _ _ _ h
      | endElement name =>
        simp only [collect_detail_bits] at h
        split at h
        · rw [Option.some_inj] at h
          rw [← h]
        · exact ih _ _ _ _ _ _ _ _ h
      | endDocument =>
        simp only [collect_detail_bits] at h
        exact ih _ _ _ _ _ _ _ _ h
      | other =>
        simp only [collect_detail_bits] at h
        exact ih _ _ _ _ _ _ _ _ h

/-- `collect_function_info` never touches `fn_defines` either: a function
Document carries the `fn_defines` of the accumulator it was built from
(which is `FunctionInfo.new`, i.e. the empty list). -/
theorem cfi_preserves_defines :
    ∀ (fuel : Nat) (st : Structures) (fn : FunctionInfo) (events : List XmlEvent)
      (res : FunctionInfo × Structures × List XmlEvent),
      collect_function_info fuel st fn events = some res →
      res.1.fn_defines = fn.fn_defines := by
  intro fuel
  induction fuel with
  | zero =>
    intro st fn events res h
    simp [collect_function_info] at h
  | succ f ih =>
    intro st fn events res h
    cases events with
    | nil => simp [collect_function_info] at h
    | cons e rest =>
      cases e with
      | startElement name attrs =>
        simp only [collect_function_info] at h
        repeat' split at h
        all_goals try simp at h
        all_goals try exact ih _ _ _ _ h
        all_goals try (rw [ih _ _ _ _ h])
        all_goals
          rename_i heq
          exact cdb_preserves_defines f _ _ _ _ _ _ _ _ heq
      | characters s =>
        simp only [collect_function_info] at h
        exact ih _ _ _ _ h
      | endElement name =>
        simp only [collect_function_info] at h
        split at h
        · rw [Option.some_inj] at h
          rw [← h]
        · exact ih _ _ _ _ h
      | endDocument =>
        simp only [collect_function_info] at h
        exact ih _ _ _ _ h
      | other =>
        simp only [collect_function_info] at h
        exact ih _ _ _ _ h

/-- The Document sequence produced by `read_file`: the input prefix, then
the function Documents built during this run — all with empty
`fn_defines` — and the synthesized General Document appended last. -/
theorem read_file_shape :
    ∀ (fuel : Nat) (hf : String) (fns : List FunctionInfo) (defines : List HashDefine)
      (general : FunctionInfo) (st : Structures) (events : List XmlEvent)
      (res : List FunctionInfo × Structures × String),
      read_file fuel hf fns defines general st events = some res →
      ∃ post g, res.1 = fns ++ post ++ [g] ∧ ∀ x ∈ post, x.fn_defines = [] := by
  intro fuel
  induction fuel with
  | zero =>
    intro hf fns defines general st events res h
    simp [read_file] at h
  | succ f ih =>
    intro hf fns defines general st events res h
    cases events with
    | nil => simp [read_file] at h
    | cons e rest =>
      cases e with
      | startElement name attrs =>
        simp only [read_file] at h
        repeat' split at h
        all_goals try simp at h
        all_goals try exact ih _ _ _ _ _ _ _ h
        all_goals
          rename_i fnr st' rest' heq
          obtain ⟨post, g, hshape, hp⟩ := ih _ _ _ _ _ _ _ h
          refine ⟨fnr :: post, g, by simpa using hshape, ?_⟩
          intro x hx
          rcases List.mem_cons.1 hx with hx1 | hx2
          · rw [hx1]
            exact (cfi_preserves_defines f _ _ _ _ heq).trans rfl
          · exact hp x hx2
      | characters s =>
        simp only [read_file] at h
        exact ih _ _ _ _ _ _ _ h
      | endElement name =>
        simp only [read_file] at h
        exact ih _ _ _ _ _ _ _ h
      | endDocument =>
        simp only [read_file] at h
        rw [Option.some_inj] at h
        refine ⟨[], { general with fn_name := hf, fn_defines := defines }, ?_, by simp⟩
        rw [← h]
        simp
      | other =>
        simp only [read_file] at h
        exact ih _ _ _ _ _ _ _ h

/-- Claim C9: every Document of a `read_file` run except the final
(General) one has an empty `fn_defines`, hence an absent DEFINES section;
and a define is printed in the DEFINES section iff its name equals its own
ASCII upper-casing — `MAXSIZE` is printed, a sibling `maxsize` is parsed but
excluded. -/
theorem c9_defines_general_only :
    (∀ (fuel : Nat) (hf : String) (defines : List HashDefine) (general : FunctionInfo)
       (st : Structures) (events : List XmlEvent)
       (res : List FunctionInfo × Structures × String),
       read_file fuel hf [] defines general st events = some res →
       ∃ post g, res.1 = post ++ [g] ∧ ∀ x ∈ post, defines_section x.fn_defines = []) ∧
    (∀ d : HashDefine, ¬ define_lines d = [] ↔ d.hd_name = to_ascii_uppercase d.hd_name) ∧
    define_lines { hd_name := "MAXSIZE", hd_init := "42", hd_brief := "Maximum size",
                   hd_desc := "" } =
      [".PP", "Maximum size", ".br", "#define MAXSIZE 42", ".br"] ∧
    define_lines { hd_name := "maxsize", hd_init := "42", hd_brief := "Maximum size",
                   hd_desc := "" } = [] := by
  refine ⟨?_, ?_, by decide, by decide⟩
  · intro fuel hf defines general st events res h
    obtain ⟨post, g, hshape, hdef⟩ := read_file_shape fuel hf [] defines general st events res h
    refine ⟨post, g, ?_, ?_⟩
    · rw [hshape, List.nil_append]
    · intro x hx
      rw [defines_section, if_pos (hdef x hx)]
  · intro d
    by_cases hd : d.hd_name = to_ascii_uppercase d.hd_name
    · rw [define_lines, if_pos hd]
      exact iff_of_true (by simp) hd
    · rw [define_lines, if_neg hd]
      exact iff_of_false (fun hcon => hcon rfl) hd

/-- Witness for `c9_defines_general_only` on the one-event stream
`[endDocument]`: the run yields only the General Document. -/
theorem c9_defines_general_only_witness :
    ∃ post g,
      ([{ FunctionInfo.new with fn_name := "h.h" }] : List FunctionInfo) = post ++ [g] ∧
      ∀ x ∈ post, defines_section x.fn_defines = [] := by
  have h : read_file 5 "h.h" [] [] FunctionInfo.new [] [XmlEvent.endDocument] =
      some ([{ FunctionInfo.new with fn_name := "h.h" }], [], "h.h") := by decide
  exact c9_defines_general_only.1 5 "h.h" [] FunctionInfo.new [] [XmlEvent.endDocument] _ h

end Doxygen2man
